import Mathlib

/-!
Shallow embedding of `graphql_compiler/compiler/emit_sql.py`: the SQL-emission
stage of the graph-query compiler.  Python functions become Lean functions;
the mutable `CompilationContext` namedtuple becomes a record of maps threaded
explicitly; SQLAlchemy query/expression objects become an explicit AST
(`SqlExpr`, `FromClause`, `SelectQuery`, `SelectableDef`); Python exceptions
become `Except CompileErr`.  External collaborators (SQLAlchemy foreign-key
introspection, the table metadata provider, the backend descriptor) are
parameters of the embedding, mirroring the module boundary of the source.
-/

namespace EmitSql

/-- Query paths: the ordered, unique identifier of a scope (`query_path` tuples). -/
abbrev QueryPath := List String

/-- The three IR block kinds that can own a scope (`blocks.QueryRoot`,
`blocks.Traverse`, `blocks.Recurse`). The `blocks` module is an upstream
collaborator; only these three classes are consulted by `emit_sql.py`. -/
inductive BlockKind where
  | queryRoot
  | traverse
  | recurse
deriving DecidableEq, Repr

/-- An IR block: kind plus the attributes `emit_sql.py` reads from it
(`direction`, `edge_name`, and the recursion `depth` bound of `Recurse`). -/
structure Block where
  kind : BlockKind
  direction : String := ""
  edge_name : String := ""
  depth : Nat := 0
deriving DecidableEq, Repr

/-- `helpers.INBOUND_EDGE_DIRECTION`: the string tag of inbound traversals. -/
def INBOUND_EDGE_DIRECTION : String := "in"

/-- `constants.DEPTH_INTERNAL_NAME`: the reserved depth column of recursive CTEs
(the test suite shows this exact reserved name). -/
def DEPTH_INTERNAL_NAME : String := "__depth_internal_name"

/-- `constants.PATH_INTERNAL_NAME`: the reserved path column of recursive CTEs. -/
def PATH_INTERNAL_NAME : String := "__path_internal_name"

/-- A node of the SqlNode tree: `query_path`, `block`, non-recursive
`children_nodes`, and the `recursions` list of deferred `Recurse` children. -/
inductive SqlNode : Type where
  | mk : QueryPath → Block → List SqlNode → List SqlNode → SqlNode
deriving Repr

def SqlNode.query_path : SqlNode → QueryPath
  | .mk qp _ _ _ => qp

def SqlNode.block : SqlNode → Block
  | .mk _ b _ _ => b

def SqlNode.children_nodes : SqlNode → List SqlNode
  | .mk _ _ ch _ => ch

def SqlNode.recursions : SqlNode → List SqlNode
  | .mk _ _ _ rs => rs

/-- Replace the `recursions` list of a node (models the in-place
`node.recursions.extend(...)` mutation of the Python code). -/
def SqlNode.withRecursions : SqlNode → List SqlNode → SqlNode
  | .mk qp b ch _, rs => .mk qp b ch rs

/-- A field location: the `(query_path, field)` pair carried by IR field
references (`expression.location.query_path` / `.field`). -/
structure FieldLoc where
  query_path : QueryPath
  field : String
deriving DecidableEq, Repr

/-- An output field reference as stored in `query_path_to_output_fields`
values: the part of the IR `OutputContextField` that `emit_sql.py` reads. -/
structure OutputFieldRef where
  location : FieldLoc
deriving DecidableEq, Repr

/-- A tag field exported for cross-scope filtering, as stored in
`query_path_to_tag_fields` lists. -/
structure TagField where
  location : FieldLoc
deriving DecidableEq, Repr

/-- One entry of an output-fields dict: `(field, field_type, is_renamed)`.
The declared GraphQL type is kept as its name. -/
abbrev OutputEntry := OutputFieldRef × String × Bool

/-- Per-scope location info: the part of the upstream `LocationInfo` that
`emit_sql.py` reads (`location_info.type.name`, `.optional_scopes_depth`). -/
structure LocationInfo where
  typeName : String
  optional_scopes_depth : Nat
deriving DecidableEq, Repr

/-- Runtime values of SQL scalar expressions (used to give semantics to the
emitted predicates; `vnull` also stands for the Python `None` object where it
flows into column lists). -/
inductive SqlVal where
  | vint (z : Int)
  | vstr (s : String)
  | vbool (b : Bool)
  | vnull
deriving DecidableEq, Repr, BEq

/-- Predicate-expression trees of the IR (`compiler.expressions`): the five
node kinds `_expression_to_sql` dispatches on.  The defining module is an
upstream collaborator; attribute names follow its use in `emit_sql.py`. -/
inductive Expression where
  | localField (field_name : String)
  | var (variable_name : String)
  | literal (value : SqlVal)
  | contextField (location : FieldLoc)
  | binaryComposition (operator : String) (left : Expression) (right : Expression)
deriving DecidableEq, Repr

/-- A `Filter` block: `emit_sql.py` only reads its `predicate`. -/
structure FilterBlock where
  predicate : Expression
deriving DecidableEq, Repr

/-- One stored filter: `(filter_block, filter_query_path)` as kept in the
`query_path_to_filter` lists. -/
abbrev FilterEntry := FilterBlock × QueryPath

/-- Operator cardinality (`constants.Cardinality`): SINGLE infix operators,
DUAL two-argument combinators, MANY collection-membership operators. -/
inductive Cardinality where
  | SINGLE
  | DUAL
  | MANY
deriving DecidableEq, Repr

/-- One entry of the `constants.OPERATORS` table: the SQLAlchemy operator
name plus its cardinality. -/
structure SqlOperator where
  name : String
  cardinality : Cardinality
deriving DecidableEq, Repr

/-- Modelled from the spec: the `constants.OPERATORS` table (the defining
module `ir_lowering_sql.constants` is not part of the sources).  Per spec
section 4.4: SINGLE comparison operators, DUAL combinators (AND, OR, BETWEEN),
and MANY collection membership. -/
def OPERATORS : String → Option SqlOperator
  | "=" => some ⟨"__eq__", .SINGLE⟩
  | "<" => some ⟨"__lt__", .SINGLE⟩
  | ">" => some ⟨"__gt__", .SINGLE⟩
  | "<=" => some ⟨"__le__", .SINGLE⟩
  | ">=" => some ⟨"__ge__", .SINGLE⟩
  | "has_substring" => some ⟨"contains", .SINGLE⟩
  | "&&" => some ⟨"and_", .DUAL⟩
  | "||" => some ⟨"or_", .DUAL⟩
  | "between" => some ⟨"between", .DUAL⟩
  | "in_collection" => some ⟨"in_", .MANY⟩
  | _ => none

/-- SQLAlchemy column/clause expressions as built by `emit_sql.py`.
Columns reference their selectable by numeric id (the identity of the
aliased-table/CTE object). -/
inductive SqlExpr where
  | col (tableId : Nat) (name : String)
  | label (e : SqlExpr) (name : String)
  | litCol (s : String)
  | lit (v : SqlVal)
  | bindParam (name : String) (expanding : Bool)
  | castString (e : SqlExpr)
  | concat (a : SqlExpr) (b : SqlExpr)
  | contains (a : SqlExpr) (b : SqlExpr)
  | caseWhen (c : SqlExpr) (t : SqlExpr) (f : SqlExpr)
  | eq (a : SqlExpr) (b : SqlExpr)
  | lt (a : SqlExpr) (b : SqlExpr)
  | add (a : SqlExpr) (b : SqlExpr)
  | andN (cs : List SqlExpr)
  | binOp (opName : String) (a : SqlExpr) (b : SqlExpr)

/-- Whether a compiled operand is the Python `None` object (a `Literal`
whose value is null compiles to it). -/
def SqlExpr.isPyNone : SqlExpr → Bool
  | .lit .vnull => true
  | _ => false

/-- `.name` of a column or labeled column (other expressions have no name
attribute; the Python code only reads `.name` off columns and labels). -/
def SqlExpr.name : SqlExpr → String
  | .col _ n => n
  | .label _ n => n
  | _ => ""

/-- The accumulated join tree of a scope (`query_path_to_from_clause` values):
either a single selectable or a (possibly outer) join with an ON clause. -/
inductive FromClause where
  | base (selId : Nat)
  | join (l : FromClause) (r : FromClause) (onclause : SqlExpr) (isOuter : Bool)

/-- A SELECT query: columns, DISTINCT flag, FROM clause, WHERE clauses. -/
structure SelectQuery where
  columns : List SqlExpr
  distinct : Bool
  from_clause : FromClause
  where_clauses : List SqlExpr

/-- What a selectable id stands for: an aliased table, an alias of another
selectable, a CTE wrapping a query, or a set-operation compound of a
recursive CTE's anchor with its recursive term. -/
inductive SelectableDef where
  | tableAlias (tableName : String)
  | aliasOf (ofId : Nat) (tableName : String)
  | cte (q : SelectQuery) (isRecursive : Bool)
  | compound (combinator : String) (anchorId : Nat) (recursiveTerm : SelectQuery)

/-- The backend descriptor: `emit_sql.py` reads only its
`recursion_combinator` name. -/
structure DbBackend where
  recursion_combinator : String
deriving DecidableEq, Repr

/-- An equality pattern between a column of the outer and a column of the
inner selectable, as produced by SQLAlchemy foreign-key introspection.  The
boolean flags say which side each column lives on (self-referencing edges
produce patterns in both orientations). -/
structure OnClausePat where
  leftName : String
  leftOnOuter : Bool
  rightName : String
  rightOnOuter : Bool
deriving DecidableEq, Repr

/-- The outcome of SQLAlchemy's `join_condition` on two tables: a single
binary equality, a clause list (`and_`) of several, or one of the
`UNRESOLVABLE_JOIN_EXCEPTIONS`. -/
inductive DirectJoinSpec where
  | binaryJoin (p : OnClausePat)
  | clauseList (ps : List OnClausePat)
  | unresolvable
deriving DecidableEq, Repr

/-- The compiler metadata provider plus the SQLAlchemy schema-introspection
facts the emitter consults, keyed by underlying table names:
`has_table`, `get_table`, the backend descriptor, the result of
`sqlalchemy.sql.util.join_condition`, and the raw constraint scan of
`Join._joincond_scan_left_right`. -/
structure CompilerMetadata where
  tableNames : List String
  tableForType : String → String
  db_backend : DbBackend
  joinConditionSpec : String → String → DirectJoinSpec
  joincondScanSpec : String → String → List OnClausePat

def CompilerMetadata.has_table (m : CompilerMetadata) (n : String) : Bool :=
  m.tableNames.contains n

def CompilerMetadata.get_table (m : CompilerMetadata) (n : String) : String :=
  m.tableForType n

/-- Python exceptions raised during emission.  `assertionError` models
`raise AssertionError(msg)` (internal-defect errors); `graphQLCompileError`
models the user-facing `exceptions.GraphQLCompilationError` class, which
`emit_sql.py` itself never raises; `runtimeError` models KeyError /
IndexError / AttributeError / ValueError; `outOfFuel` is an artifact of the
bounded modelling of the (terminating) tree recursion. -/
inductive CompileErr where
  | assertionError (msg : String)
  | graphQLCompileError (msg : String)
  | runtimeError (kind : String)
  | outOfFuel
deriving DecidableEq, Repr

/-- The compilation context: the fields of the `CompilationContext`
namedtuple, as maps from query paths.  `query_path_to_filter` and
`query_path_to_output_fields` distinguish deleted entries (`none`);
`query_path_to_tag_fields` and `query_path_field_renames` are defaultdicts
(total maps with empty default).  `selectable_defs`/`fresh` form the
allocator for aliased tables and CTE objects. -/
structure CompilationContext where
  query_path_to_selectable : QueryPath → Option Nat
  query_path_to_from_clause : QueryPath → Option FromClause
  query_path_to_location_info : QueryPath → Option LocationInfo
  query_path_to_recursion_columns : QueryPath → Option (SqlExpr × Option SqlExpr)
  query_path_to_filter : QueryPath → Option (List FilterEntry)
  query_path_to_output_fields : QueryPath → Option (List (String × OutputEntry))
  query_path_field_renames : QueryPath → List (String × String)
  query_path_to_tag_fields : QueryPath → List TagField
  compiler_metadata : CompilerMetadata
  selectable_defs : Nat → Option SelectableDef
  fresh : Nat

/-- Point update of an optional map (dict assignment / `del`). -/
def updMap {α : Type} (f : QueryPath → Option α) (k : QueryPath) (v : Option α) :
    QueryPath → Option α :=
  fun p => if p = k then v else f p

/-- Point update of a total (defaultdict-like) map. -/
def updTot {α : Type} (f : QueryPath → α) (k : QueryPath) (v : α) : QueryPath → α :=
  fun p => if p = k then v else f p

/-- Dict lookup that raises `KeyError` when the key is absent. -/
def ctxGet {α : Type} (f : QueryPath → Option α) (qp : QueryPath) : Except CompileErr α :=
  match f qp with
  | some v => .ok v
  | none => .error (.runtimeError "KeyError")

/-- Python-dict assignment on an association list: replace in place if the
key exists, else append (insertion-order semantics). -/
def assocSet {β : Type} (l : List (String × β)) (k : String) (v : β) : List (String × β) :=
  if l.any (fun p => p.1 == k) then
    l.map (fun p => bif p.1 == k then (k, v) else p)
  else
    l ++ [(k, v)]

/-- Allocate a fresh selectable id bound to the given definition (models the
creation of a new SQLAlchemy Alias / CTE / CompoundSelect object). -/
def CompilationContext.alloc (ctx : CompilationContext) (d : SelectableDef) :
    Nat × CompilationContext :=
  (ctx.fresh,
   { ctx with
     fresh := ctx.fresh + 1
     selectable_defs := fun i => if i = ctx.fresh then some d else ctx.selectable_defs i })

/-- Record a field rename: `context.query_path_field_renames[qp][field] = alias`. -/
def updRenames (ctx : CompilationContext) (qp : QueryPath) (field alias0 : String) :
    CompilationContext :=
  { ctx with
    query_path_field_renames :=
      updTot ctx.query_path_field_renames qp
        (assocSet (ctx.query_path_field_renames qp) field alias0) }

/-- ASCII lowercasing (models Python `str.lower()` on identifier strings). -/
def lowerChar (c : Char) : Char :=
  if 'A' ≤ c ∧ c ≤ 'Z' then Char.ofNat (c.toNat + 32) else c

/-- ASCII lowercasing of a string. -/
def strLower (s : String) : String :=
  String.mk (s.data.map lowerChar)

/-- SQL substring containment: the semantics of SQLAlchemy's
`column.contains(x)` (`LIKE '%' || x || '%'`). -/
def strContains (s sub : String) : Bool :=
  decide (sub.toList <:+: s.toList)

/-- The comma-separated tokens of a path-column value (the spec's notion of
"token of the accumulated path"). -/
def pathTokens (path : String) : List (List Char) :=
  path.toList.splitOn ','

/-- Whether a string is present as a whole token of a path-column value. -/
def isPathToken (path tok : String) : Bool :=
  decide (tok.toList ∈ pathTokens path)

/-- Truthiness of a SQL value (ints are truthy when nonzero). -/
def truthy : SqlVal → Bool
  | .vbool b => b
  | .vint z => z != 0
  | .vstr s => s != ""
  | .vnull => false

mutual

/-- Evaluate a SQL scalar expression on a row, given as a valuation of the
columns of every selectable.  Generic `binOp` applications and bind
parameters are not interpreted (they evaluate to `vnull`). -/
def evalExpr (env : Nat → String → SqlVal) : SqlExpr → SqlVal
  | .col t n => env t n
  | .label e _ => evalExpr env e
  | .litCol s => .vint (s.toInt?.getD 0)
  | .lit v => v
  | .bindParam _ _ => .vnull
  | .castString e =>
      match evalExpr env e with
      | .vint z => .vstr (toString z)
      | .vstr s => .vstr s
      | _ => .vnull
  | .concat a b =>
      match evalExpr env a, evalExpr env b with
      | .vstr x, .vstr y => .vstr (x ++ y)
      | _, _ => .vnull
  | .contains a b =>
      match evalExpr env a, evalExpr env b with
      | .vstr s, .vstr sub => .vbool (strContains s sub)
      | _, _ => .vnull
  | .caseWhen c t f => if truthy (evalExpr env c) then evalExpr env t else evalExpr env f
  | .eq a b => .vbool (evalExpr env a == evalExpr env b)
  | .lt a b =>
      match evalExpr env a, evalExpr env b with
      | .vint x, .vint y => .vbool (decide (x < y))
      | _, _ => .vnull
  | .add a b =>
      match evalExpr env a, evalExpr env b with
      | .vint x, .vint y => .vint (x + y)
      | _, _ => .vnull
  | .andN cs => .vbool (evalAll env cs)
  | .binOp _ _ _ => .vnull

/-- Evaluate a conjunction of expressions. -/
def evalAll (env : Nat → String → SqlVal) : List SqlExpr → Bool
  | [] => true
  | e :: rest => truthy (evalExpr env e) && evalAll env rest

end

/-- Whether a row satisfies all WHERE clauses of a query. -/
def whereHolds (env : Nat → String → SqlVal) (q : SelectQuery) : Bool :=
  evalAll env q.where_clauses

mutual

/-- The recursions gathered from a whole subtree: a node's own `recursions`
list followed by those of its non-recursive children, in traversal order.
This is the specification that the flattening pass hoists against. -/
def subtreeRecursions : SqlNode → List SqlNode
  | .mk _ _ ch rs => rs ++ subtreeRecursionsList ch

/-- The concatenated subtree recursions of a list of children. -/
def subtreeRecursionsList : List SqlNode → List SqlNode
  | [] => []
  | c :: rest => subtreeRecursions c ++ subtreeRecursionsList rest

end

mutual

/-- Number of nodes in a tree (children and deferred recursions included). -/
def nodeCount : SqlNode → Nat
  | .mk _ _ ch rs => 1 + nodeCountList ch + nodeCountList rs

/-- Total node count of a list of trees. -/
def nodeCountList : List SqlNode → Nat
  | [] => 0
  | n :: rest => nodeCount n + nodeCountList rest

end

/-- `isinstance(e, BinaryExpression)` for the expressions this module can
receive from `join_condition` (a single comparison). -/
def SqlExpr.isBinaryExpression : SqlExpr → Bool
  | .eq _ _ => true
  | .lt _ _ => true
  | .binOp _ _ _ => true
  | .contains _ _ => true
  | _ => false

/-- `isinstance(e, BooleanClauseList)` (an `and_` of several clauses). -/
def SqlExpr.isBooleanClauseList : SqlExpr → Bool
  | .andN _ => true
  | _ => false

/-- The `.clauses` attribute of a clause list. -/
def SqlExpr.clauses : SqlExpr → List SqlExpr
  | .andN cs => cs
  | _ => []

/-- The table id of `e.left` when the ON clause is an equality of columns. -/
def SqlExpr.leftColTable? : SqlExpr → Option Nat
  | .eq (.col t _) _ => some t
  | _ => none

/-- The name of `e.left` for an equality of columns. -/
def SqlExpr.leftColName? : SqlExpr → Option String
  | .eq (.col _ n) _ => some n
  | _ => none

/-- The table id of `e.right` for an equality of columns. -/
def SqlExpr.rightColTable? : SqlExpr → Option Nat
  | .eq _ (.col t _) => some t
  | _ => none

/-- The name of `e.right` for an equality of columns. -/
def SqlExpr.rightColName? : SqlExpr → Option String
  | .eq _ (.col _ n) => some n
  | _ => none

/-- Instantiate a foreign-key pattern on two concrete selectables, producing
the ON clause `left_column == right_column`. -/
def instOnClause (outerId innerId : Nat) (p : OnClausePat) : SqlExpr :=
  .eq (.col (if p.leftOnOuter then outerId else innerId) p.leftName)
      (.col (if p.rightOnOuter then outerId else innerId) p.rightName)

/-- The underlying table name of a selectable (empty for CTEs/compounds,
which carry no foreign keys). -/
def CompilationContext.underlyingName (ctx : CompilationContext) (id : Nat) : String :=
  match ctx.selectable_defs id with
  | some (.tableAlias n) => n
  | some (.aliasOf _ n) => n
  | _ => ""

/-- The original (unaliased) table behind a selectable, when there is one. -/
def CompilationContext.originalTable? (ctx : CompilationContext) (id : Nat) : Option String :=
  match ctx.selectable_defs id with
  | some (.tableAlias n) => some n
  | some (.aliasOf _ n) => some n
  | _ => none

/-- `_get_node_selectable`: the selectable (Table, CTE) of a node. -/
def _get_node_selectable (node : SqlNode) (ctx : CompilationContext) :
    Except CompileErr Nat :=
  ctxGet ctx.query_path_to_selectable node.query_path

/-- `_get_schema_type`: the GraphQL type name of a node. -/
def _get_schema_type (node : SqlNode) (ctx : CompilationContext) :
    Except CompileErr String := do
  let location_info ← ctxGet ctx.query_path_to_location_info node.query_path
  return location_info.typeName

/-- `_get_block_direction`: direction of a Traverse/Recurse block; raises
`AssertionError` on any other block kind. -/
def _get_block_direction (b : Block) : Except CompileErr String :=
  if b.kind = .traverse ∨ b.kind = .recurse then .ok b.direction
  else .error (.assertionError "")

/-- The result of join resolution: either a direct ON clause
(`BinaryExpression`) or the triple across a junction table. -/
inductive JoinResult where
  | binary (e : SqlExpr)
  | triple (outer_to_junction : SqlExpr) (junction : Nat) (junction_to_inner : SqlExpr)

/-- `_try_get_direct_join_condition`: SQLAlchemy `join_condition` on the two
selectables, with `UNRESOLVABLE_JOIN_EXCEPTIONS` mapped to `none`. -/
def _try_get_direct_join_condition (outer_selectable inner_selectable : Nat)
    (ctx : CompilationContext) : Option SqlExpr :=
  match ctx.compiler_metadata.joinConditionSpec
      (ctx.underlyingName outer_selectable) (ctx.underlyingName inner_selectable) with
  | .binaryJoin p => some (instOnClause outer_selectable inner_selectable p)
  | .clauseList ps => some (.andN (ps.map (instOnClause outer_selectable inner_selectable)))
  | .unresolvable => none

/-- `_get_direct_onclauses`: all raw FK equalities between two selectables,
from `Join._joincond_scan_left_right`. -/
def _get_direct_onclauses (outer_selectable inner_selectable : Nat)
    (ctx : CompilationContext) : List SqlExpr :=
  (ctx.compiler_metadata.joincondScanSpec
      (ctx.underlyingName outer_selectable) (ctx.underlyingName inner_selectable)).map
    (instOnClause outer_selectable inner_selectable)

/-- `_original_tables_equal`: equality of the original tables of two
selectables, ignoring aliasing. -/
def _original_tables_equal (ctx : CompilationContext) (right_table left_table : Nat) : Bool :=
  match ctx.originalTable? right_table, ctx.originalTable? left_table with
  | some r, some l => r == l
  | _, _ => right_table == left_table

/-- `_filter_onclauses_by_direction`: keep the single ON clause whose column
placement matches the traversal direction (receiver on the inner table for
"out", swapped for "in"); any other count is an `AssertionError`. -/
def _filter_onclauses_by_direction (onclauses : List SqlExpr) (inner_node : SqlNode)
    (inner_selectable outer_selectable : Nat) : Except CompileErr SqlExpr := do
  let block_direction ← _get_block_direction inner_node.block
  let (innerS, outerS) :=
    if block_direction == INBOUND_EDGE_DIRECTION then (outer_selectable, inner_selectable)
    else (inner_selectable, outer_selectable)
  let kept := onclauses.filter (fun oc =>
    oc.rightColTable? == some innerS && oc.leftColTable? == some outerS)
  match kept with
  | [oc] => .ok oc
  | _ => .error (.assertionError "")

/-- `_get_junction_join_condition`: joining to one side of a junction table;
falls back from `join_condition` to the raw constraint scan, using the
column-name prefix convention when two candidates exist. -/
def _get_junction_join_condition (outer_selectable inner_selectable : Nat)
    (columnPre : String) (ctx : CompilationContext) : Except CompileErr SqlExpr :=
  match _try_get_direct_join_condition outer_selectable inner_selectable ctx with
  | some join_cond => .ok join_cond
  | none =>
    match _get_direct_onclauses outer_selectable inner_selectable ctx with
    | [oc] =>
        if oc.isBinaryExpression then .ok oc else .error (.assertionError "")
    | [oc1, oc2] =>
        match ([oc1, oc2].filter (fun oc =>
            ((oc.rightColName?).getD "").startsWith columnPre)) with
        | [oc] => .ok oc
        | _ => .error (.assertionError "")
    | _ => .error (.assertionError "")

/-- `_try_get_many_to_many_join_condition`: junction-table resolution.
Checks the short (edge-named) and long (type-suffixed) table names; both
present raises a bare `AssertionError`, neither present returns `None`. -/
def _try_get_many_to_many_join_condition (outer_node inner_node : SqlNode)
    (ctx : CompilationContext) :
    Except CompileErr (Option (SqlExpr × Nat × SqlExpr) × CompilationContext) := do
  let outer_selectable ← _get_node_selectable outer_node ctx
  let inner_selectable ← _get_node_selectable inner_node ctx
  let edge_name := inner_node.block.edge_name
  let type_name ← _get_schema_type inner_node ctx
  let short_junction_table_name := edge_name
  let has_short_table_name := ctx.compiler_metadata.has_table short_junction_table_name
  let long_junction_table_name := edge_name ++ "_" ++ type_name
  let has_long_table_name := ctx.compiler_metadata.has_table long_junction_table_name
  if !has_long_table_name && !has_short_table_name then
    return (none, ctx)
  else if has_long_table_name && has_short_table_name then
    .error (.assertionError "")
  else do
    let junction_table_name :=
      if has_long_table_name then long_junction_table_name else short_junction_table_name
    let (jt0, ctx) := ctx.alloc
      (.tableAlias (ctx.compiler_metadata.get_table junction_table_name))
    match edge_name.splitOn "_" with
    | [outerPartRaw, innerPartRaw] => do
        let outerColPre := strLower outerPartRaw
        let innerColPre := strLower innerPartRaw
        let direction ← _get_block_direction inner_node.block
        let (outerColPre, innerColPre) :=
          if direction == INBOUND_EDGE_DIRECTION then (innerColPre, outerColPre)
          else (outerColPre, innerColPre)
        let (junction_table, ctx) := ctx.alloc
          (.aliasOf jt0 (ctx.compiler_metadata.get_table junction_table_name))
        let outer_to_junction_onclause ←
          _get_junction_join_condition outer_selectable junction_table outerColPre ctx
        let junction_to_inner_onclause ←
          _get_junction_join_condition junction_table inner_selectable innerColPre ctx
        return (some (outer_to_junction_onclause, junction_table, junction_to_inner_onclause), ctx)
    | _ => .error (.runtimeError "ValueError")

/-- `_get_join_condition`: junction resolution first, then the direct
foreign-key join, then self-join disambiguation by the edge-derived
column-name convention and traversal direction. -/
def _get_join_condition (outer_node inner_node : SqlNode) (ctx : CompilationContext) :
    Except CompileErr (JoinResult × CompilationContext) := do
  let outer_selectable ← _get_node_selectable outer_node ctx
  let inner_selectable ← _get_node_selectable inner_node ctx
  let (m2m, ctx) ← _try_get_many_to_many_join_condition outer_node inner_node ctx
  match m2m with
  | some (o2j, junction_table, j2i) => return (.triple o2j junction_table j2i, ctx)
  | none =>
    match _try_get_direct_join_condition outer_selectable inner_selectable ctx with
    | some onclause =>
        if onclause.isBinaryExpression then
          return (.binary onclause, ctx)
        else if onclause.isBooleanClauseList then do
          if !(_original_tables_equal ctx outer_selectable inner_selectable) then
            .error (.assertionError "")
          else do
            let oc ← _filter_onclauses_by_direction onclause.clauses inner_node
              inner_selectable outer_selectable
            return (.binary oc, ctx)
        else
          .error (.assertionError "")
    | none => do
        let edge_name := inner_node.block.edge_name
        match (edge_name.splitOn "_").get? 1 with
        | none => .error (.runtimeError "IndexError")
        | some part => do
            let column_name := strLower part ++ "_id"
            let onclauses := _get_direct_onclauses outer_selectable inner_selectable ctx
            let onclauses := onclauses.filter (fun oc =>
              (oc.rightColName?).getD "" == column_name)
            match onclauses with
            | [] => .error (.assertionError "")
            | [oc] => return (.binary oc, ctx)
            | _ => do
                let oc ← _filter_onclauses_by_direction onclauses inner_node
                  inner_selectable outer_selectable
                return (.binary oc, ctx)

/-- `_create_and_reference_table`: allocate a fresh aliased table for a node
and point the node's from-clause and selectable at it. -/
def _create_and_reference_table (node : SqlNode) (ctx : CompilationContext) :
    Except CompileErr (Nat × CompilationContext) := do
  let schema_type ← _get_schema_type node ctx
  let (table, ctx) := ctx.alloc (.tableAlias (ctx.compiler_metadata.get_table schema_type))
  let ctx := { ctx with
    query_path_to_from_clause :=
      updMap ctx.query_path_to_from_clause node.query_path (some (.base table))
    query_path_to_selectable :=
      updMap ctx.query_path_to_selectable node.query_path (some table) }
  return (table, ctx)

/-- `_flatten_output_fields`: merge the child's output fields into the
parent's entry, extend the parent's tag fields with the child's, and delete
the child's output-fields entry.  (The child's tag-fields entry is not
deleted by the source.) -/
def _flatten_output_fields (parent_node child_node : SqlNode) (ctx : CompilationContext) :
    CompilationContext :=
  let child_output_fields := (ctx.query_path_to_output_fields child_node.query_path).getD []
  let parent_output_fields := (ctx.query_path_to_output_fields parent_node.query_path).getD []
  let merged := child_output_fields.foldl
    (fun acc e => assocSet acc e.1 e.2) parent_output_fields
  let ctx := { ctx with
    query_path_to_output_fields :=
      updMap ctx.query_path_to_output_fields parent_node.query_path (some merged) }
  let ctx := { ctx with
    query_path_to_tag_fields :=
      updTot ctx.query_path_to_tag_fields parent_node.query_path
        (ctx.query_path_to_tag_fields parent_node.query_path ++
          ctx.query_path_to_tag_fields child_node.query_path) }
  { ctx with
    query_path_to_output_fields :=
      updMap ctx.query_path_to_output_fields child_node.query_path none }

/-- `_flatten_node`: flatten a child node's references onto its parent —
output fields and tags, then filters (parent extended, child entry deleted),
then hoist the child's recursions into the parent's list. -/
def _flatten_node (node child_node : SqlNode) (ctx : CompilationContext) :
    SqlNode × CompilationContext :=
  let ctx := _flatten_output_fields node child_node ctx
  let node_filters := (ctx.query_path_to_filter node.query_path).getD []
  let child_filters := (ctx.query_path_to_filter child_node.query_path).getD []
  let ctx := { ctx with
    query_path_to_filter :=
      updMap ctx.query_path_to_filter node.query_path (some (node_filters ++ child_filters)) }
  let ctx := { ctx with
    query_path_to_filter :=
      updMap ctx.query_path_to_filter child_node.query_path none }
  (node.withRecursions (node.recursions ++ child_node.recursions), ctx)

/-- `_join_nodes`: join the child's from-clause onto the parent's, as an
outer join exactly when the child's `optional_scopes_depth > 0`, two-stepped
through the junction table when the ON clause is a triple; the parent's
from-clause entry is replaced and the child's deleted. -/
def _join_nodes (parent_node child_node : SqlNode) (onclause : JoinResult)
    (ctx : CompilationContext) : Except CompileErr CompilationContext := do
  let location_info ← ctxGet ctx.query_path_to_location_info child_node.query_path
  let is_optional := decide (location_info.optional_scopes_depth > 0)
  let parent_from_clause ← ctxGet ctx.query_path_to_from_clause parent_node.query_path
  let child_from_clause ← ctxGet ctx.query_path_to_from_clause child_node.query_path
  let parent_from_clause :=
    if is_optional then
      match onclause with
      | .triple parent_to_junction junction_table junction_to_child =>
          FromClause.join
            (FromClause.join parent_from_clause (.base junction_table) parent_to_junction true)
            child_from_clause junction_to_child true
      | .binary e => FromClause.join parent_from_clause child_from_clause e true
    else
      match onclause with
      | .triple parent_to_junction junction_table junction_to_child =>
          FromClause.join
            (FromClause.join parent_from_clause (.base junction_table) parent_to_junction false)
            child_from_clause junction_to_child false
      | .binary e => FromClause.join parent_from_clause child_from_clause e false
  let ctx := { ctx with
    query_path_to_from_clause :=
      updMap ctx.query_path_to_from_clause parent_node.query_path (some parent_from_clause) }
  return { ctx with
    query_path_to_from_clause :=
      updMap ctx.query_path_to_from_clause child_node.query_path none }

/-- `_create_link_for_recursion`: pre-create the recursion node's table,
resolve the join from the node to it, and return the node-side column that
must be exposed to later join the recursive CTE.  (At every call site the
recursion node's `parent` is `node`.) -/
def _create_link_for_recursion (node recursion_node : SqlNode) (ctx : CompilationContext) :
    Except CompileErr (SqlExpr × CompilationContext) := do
  let selectable ← _get_node_selectable node ctx
  let (_, ctx) ← _create_and_reference_table recursion_node ctx
  let (edge, ctx) ← _get_join_condition node recursion_node ctx
  match edge with
  | .triple recursion_on_clause _ _ =>
      match recursion_on_clause.leftColName? with
      | some n => return (.col selectable n, ctx)
      | none => .error (.runtimeError "AttributeError")
  | .binary e =>
      match e.leftColName? with
      | some n => return (.col selectable n, ctx)
      | none => .error (.runtimeError "AttributeError")

/-- The loop body of `_create_links_for_recursions` over a recursions list. -/
def linksLoop (node : SqlNode) (recs : List SqlNode) (ctx : CompilationContext) :
    Except CompileErr CompilationContext :=
  match recs with
  | [] => .ok ctx
  | recursive_node :: rest => do
      let (link_column, ctx) ← _create_link_for_recursion node recursive_node ctx
      let ctx := { ctx with
        query_path_to_recursion_columns :=
          updMap ctx.query_path_to_recursion_columns recursive_node.query_path
            (some (link_column, none)) }
      linksLoop node rest ctx

/-- `_create_links_for_recursions`: register, for every recursion of the
node, the inbound link column paired with `None` for the yet-unknown
outbound column. -/
def _create_links_for_recursions (node : SqlNode) (ctx : CompilationContext) :
    Except CompileErr CompilationContext :=
  linksLoop node node.recursions ctx

/-- The second loop of `_flatten_and_join_nonrecursive_nodes`: flatten each
(already collapsed) child onto the node, resolve the join condition and
join. -/
def joinChildrenLoop (node : SqlNode) (children : List SqlNode) (ctx : CompilationContext) :
    Except CompileErr (SqlNode × CompilationContext) :=
  match children with
  | [] => .ok (node, ctx)
  | child_node :: rest => do
      let (node, ctx) := _flatten_node node child_node ctx
      let (onclause, ctx) ← _get_join_condition node child_node ctx
      let ctx ← _join_nodes node child_node onclause ctx
      joinChildrenLoop node rest ctx

mutual

/-- `_flatten_and_join_nonrecursive_nodes`: post-order collapse of the
non-recursive subtree.  Children are flattened first; then the node's table
is created, links for its (direct) recursions are registered, and each child
is flattened into and joined onto the node.  Returns the updated node, the
visited nodes, and the context. -/
def _flatten_and_join_nonrecursive_nodes : SqlNode → CompilationContext →
    Except CompileErr ((SqlNode × List SqlNode) × CompilationContext)
  | node@(.mk _ _ ch _), ctx =>
    match flattenChildrenLoop ch ctx with
    | .error e => .error e
    | .ok ((children1, visited1), ctx) =>
      match _create_and_reference_table node ctx with
      | .error e => .error e
      | .ok (_, ctx) =>
        match _create_links_for_recursions node ctx with
        | .error e => .error e
        | .ok ctx =>
          match joinChildrenLoop node children1 ctx with
          | .error e => .error e
          | .ok (node1, ctx) => .ok ((node1, node1 :: visited1), ctx)

/-- The first loop of `_flatten_and_join_nonrecursive_nodes`: recursively
collapse each child's tree, accumulating updated children and visited
nodes. -/
def flattenChildrenLoop (children : List SqlNode) (ctx : CompilationContext) :
    Except CompileErr ((List SqlNode × List SqlNode) × CompilationContext) :=
  match children with
  | [] => .ok (([], []), ctx)
  | child_node :: rest =>
    match _flatten_and_join_nonrecursive_nodes child_node ctx with
    | .error e => .error e
    | .ok ((child1, vis), ctx) =>
      match flattenChildrenLoop rest ctx with
      | .error e => .error e
      | .ok ((rest1, vis2), ctx) => .ok ((child1 :: rest1, vis ++ vis2), ctx)

end


/-- The name SQLAlchemy generates for a `.label(None)` anonymous label;
deterministic per compilation via the allocator counter. -/
def anonLabelName (k : Nat) : String :=
  "anon_" ++ toString k

/-- The per-output-field loop of `_get_output_columns`: resolve each alias
to a column (raw when already renamed, labeled otherwise, recording the
rename and flipping the entry's flag). -/
def outputFieldsLoop (ctx : CompilationContext) :
    List (String × OutputEntry) →
    Except CompileErr (List SqlExpr × List (String × OutputEntry) × CompilationContext)
  | [] => .ok ([], [], ctx)
  | (field_alias, (field, field_type, is_renamed)) :: rest => do
      let selectable ← ctxGet ctx.query_path_to_selectable field.location.query_path
      if is_renamed then do
        let column := SqlExpr.col selectable field_alias
        let (columns, entries, ctx1) ← outputFieldsLoop ctx rest
        return (column :: columns, (field_alias, (field, field_type, is_renamed)) :: entries, ctx1)
      else do
        let field_name := field.location.field
        let column := SqlExpr.label (.col selectable field_name) field_alias
        let ctx := updRenames ctx field.location.query_path field_name field_alias
        let (columns, entries, ctx1) ← outputFieldsLoop ctx rest
        return (column :: columns, (field_alias, (field, field_type, true)) :: entries, ctx1)

/-- The tag-column loop of `_get_output_columns`: anonymous labels over the
tag's defining scope, with the generated name recorded as a rename. -/
def tagFieldsLoop (ctx : CompilationContext) :
    List TagField → Except CompileErr (List SqlExpr × CompilationContext)
  | [] => .ok ([], ctx)
  | tag_field :: rest => do
      let selectable ← ctxGet ctx.query_path_to_selectable tag_field.location.query_path
      let field_name := tag_field.location.field
      let labelName := anonLabelName ctx.fresh
      let column := SqlExpr.label (.col selectable field_name) labelName
      let ctx := { ctx with fresh := ctx.fresh + 1 }
      let ctx := updRenames ctx tag_field.location.query_path field_name labelName
      let (columns, ctx1) ← tagFieldsLoop ctx rest
      return (column :: columns, ctx1)

/-- `_get_output_columns`: the aliased output columns of a node, plus —
when not emitting the final query — one anonymous column per tag field. -/
def _get_output_columns (node : SqlNode) (is_final_query : Bool) (ctx : CompilationContext) :
    Except CompileErr (List SqlExpr × CompilationContext) := do
  let output_fields := (ctx.query_path_to_output_fields node.query_path).getD []
  let (columns, entries, ctx) ← outputFieldsLoop ctx output_fields
  let ctx := { ctx with
    query_path_to_output_fields :=
      updMap ctx.query_path_to_output_fields node.query_path (some entries) }
  if !is_final_query then do
    let (tag_columns, ctx) ← tagFieldsLoop ctx (ctx.query_path_to_tag_fields node.query_path)
    return (columns ++ tag_columns, ctx)
  else
    return (columns, ctx)

/-- `_expression_to_sql`: recursively convert an IR predicate expression to
its SQL form.  MANY-cardinality operators demand a bind parameter on the
left and a column on the right, marking the parameter list-expanding;
violations are `AssertionError`s. -/
def _expression_to_sql (expression : Expression) (selectable : Nat)
    (location_info : LocationInfo) (ctx : CompilationContext) : Except CompileErr SqlExpr :=
  match expression with
  | .localField column_name => .ok (.col selectable column_name)
  | .var variable_name => .ok (.bindParam variable_name false)
  | .literal value => .ok (.lit value)
  | .contextField location => do
      let tag_field_name := location.field
      let tag_query_path := location.query_path
      let tag_column_name :=
        ((ctx.query_path_field_renames tag_query_path).lookup tag_field_name).getD
          tag_field_name
      let tag_selectable ← ctxGet ctx.query_path_to_selectable tag_query_path
      return (.col tag_selectable tag_column_name)
  | .binaryComposition operator left0 right0 => do
      let sql_operator ←
        match OPERATORS operator with
        | some op => pure op
        | none => .error (.runtimeError "KeyError")
      let left ← _expression_to_sql left0 selectable location_info ctx
      let right ← _expression_to_sql right0 selectable location_info ctx
      match sql_operator.cardinality with
      | .SINGLE =>
          if right.isPyNone && left.isPyNone then
            .error (.assertionError "")
          else if left.isPyNone && !right.isPyNone then
            return (.binOp sql_operator.name right left)
          else
            return (.binOp sql_operator.name left right)
      | .DUAL => return (.binOp sql_operator.name left right)
      | .MANY =>
          match left with
          | .bindParam pname _ =>
              match right with
              | .col t n => return (.binOp sql_operator.name (.col t n) (.bindParam pname true))
              | _ => .error (.assertionError "")
          | _ => .error (.assertionError "")

/-- `_convert_filter_to_sql`: the SQL expression of one Filter block,
resolved against the filter's owning scope. -/
def _convert_filter_to_sql (filter_block : FilterBlock) (filter_query_path : QueryPath)
    (ctx : CompilationContext) : Except CompileErr SqlExpr := do
  let filter_location_info ← ctxGet ctx.query_path_to_location_info filter_query_path
  let filter_selectable ← ctxGet ctx.query_path_to_selectable filter_query_path
  _expression_to_sql filter_block.predicate filter_selectable filter_location_info ctx

/-- `_create_query`: assemble a node's SELECT.  Non-final queries apply the
owned filters as WHERE, and append the inbound link column of every child
recursion; any query whose path closes a recursion appends the outbound
column; the final query applies no filters. -/
def _create_query (node : SqlNode) (is_final_query : Bool) (ctx : CompilationContext) :
    Except CompileErr (SelectQuery × CompilationContext) := do
  let filter_clauses ←
    (if is_final_query then pure ([] : List SqlExpr)
     else List.mapM (fun (f : FilterEntry) => _convert_filter_to_sql f.1 f.2 ctx)
        ((ctx.query_path_to_filter node.query_path).getD []))
  let (columns, ctx) ← _get_output_columns node is_final_query ctx
  let columns ←
    if !is_final_query then do
      let link_columns ← node.recursions.mapM (fun recursion => do
        let pair ← ctxGet ctx.query_path_to_recursion_columns recursion.query_path
        pure pair.1)
      pure (columns ++ link_columns)
    else
      pure columns
  let columns :=
    match ctx.query_path_to_recursion_columns node.query_path with
    | some (_, out_col) =>
        columns ++ [match out_col with | some c => c | none => SqlExpr.lit .vnull]
    | none => columns
  let from_clause ← ctxGet ctx.query_path_to_from_clause node.query_path
  let query : SelectQuery :=
    { columns := columns, distinct := false, from_clause := from_clause, where_clauses := [] }
  if is_final_query then
    return (query, ctx)
  else
    return ({ query with where_clauses := [.andN filter_clauses] }, ctx)

/-- Modelled from the SQLAlchemy API (an external collaborator): the
public attribute surface of a SQLAlchemy `CTE` object.  Among set
operations a CTE exposes only `union` and `union_all` (it is an `Alias`
subclass, not a `Select`, so `intersect`/`except_` and their `_all`
variants are absent), while many non-set-operation attributes are present
(`join`, `outerjoin`, `select`, `alias`, `lateral`, `c`, `columns`,
`name`, `original`, `element`, ...). -/
def cte_attributes : List String :=
  ["union", "union_all", "join", "outerjoin", "select", "alias", "lateral", "c",
   "columns", "name", "original", "element", "primary_key", "foreign_keys",
   "description", "self_group", "is_derived_from", "corresponding_column",
   "count", "tablesample", "replace_selectable", "suffix_with", "compile",
   "get_children", "params", "unique_params", "quote", "schema"]

/-- `hasattr(recursive_cte, name)`: membership in the CTE's attribute
surface.  Note this is attribute existence, not being a set operation: a
name like `join` passes the check (and the program proceeds, combining
the terms with a join), while a set-operation name a CTE lacks, such as
`intersect`, fails it and raises. -/
def cte_hasattr (name : String) : Bool :=
  name ∈ cte_attributes

/-- The anchor term of a recursive CTE, as built on lines 151-166 of the
source: the base column labeled as both edge columns, depth `0`, path
`CAST(base AS TEXT) || ','`, DISTINCT, joined against the outer CTE's link
column. -/
def recursiveAnchorQuery (selectable outer_cte : Nat)
    (base_column_name out_edge_name in_edge_name link_name : String) : SelectQuery :=
  { columns :=
      [ .label (.col selectable base_column_name) out_edge_name,
        .label (.col selectable base_column_name) in_edge_name,
        .label (.litCol "0") DEPTH_INTERNAL_NAME,
        .label (.concat (.castString (.col selectable base_column_name)) (.lit (.vstr ",")))
          PATH_INTERNAL_NAME ]
    distinct := true
    from_clause :=
      .join (.base selectable) (.base outer_cte)
        (.eq (.col selectable base_column_name) (.col outer_cte link_name)) false
    where_clauses := [] }

/-- The recursive term of a recursive CTE, as built on lines 168-194 of the
source: a fresh table joined to the CTE on `in = out`, depth incremented,
path extended, guarded by `depth < bound` and by the path-containment
cycle check. -/
def recursiveTermQuery (recursive_table recursive_cte : Nat)
    (out_edge_name in_edge_name : String) (depthBound : Nat) : SelectQuery :=
  { columns :=
      [ .col recursive_table out_edge_name,
        .col recursive_cte in_edge_name,
        .label (.add (.col recursive_cte DEPTH_INTERNAL_NAME) (.lit (.vint 1)))
          DEPTH_INTERNAL_NAME,
        .label (.concat (.concat (.col recursive_cte PATH_INTERNAL_NAME)
            (.castString (.col recursive_table out_edge_name))) (.lit (.vstr ",")))
          PATH_INTERNAL_NAME ]
    distinct := false
    from_clause :=
      .join (.base recursive_table) (.base recursive_cte)
        (.eq (.col recursive_table in_edge_name) (.col recursive_cte out_edge_name)) false
    where_clauses :=
      [ .andN
          [ .lt (.col recursive_cte DEPTH_INTERNAL_NAME) (.lit (.vint depthBound)),
            .eq (.caseWhen
                  (.contains (.col recursive_cte PATH_INTERNAL_NAME)
                    (.castString (.col recursive_table out_edge_name)))
                  (.lit (.vint 1)) (.lit (.vint 0)))
              (.lit (.vint 0)) ] ] }

/-- `_create_recursive_clause`: build the bounded, cycle-guarded recursive
CTE of a Recurse node, combine anchor and recursive terms with the
backend's combinator (unsupported combinators raise before any query is
built), join it into the node's from-clause, and fill in the outbound
recursion link column. -/
def _create_recursive_clause (node : SqlNode) (ctx : CompilationContext)
    (out_link_column : Option SqlExpr) (outer_cte : Option Nat) :
    Except CompileErr (Option SqlExpr × CompilationContext) := do
  if node.block.kind = .recurse then
    match out_link_column, outer_cte with
    | some link_col, some octe => do
        let selectable ← _get_node_selectable node ctx
        let (edge, ctx) ← _get_join_condition node node ctx
        let (out_edge_name, in_edge_name, base_column_name, recursive_table, ctx) ←
          match edge with
          | .binary e => do
              let out_edge_name ←
                match e.leftColName? with
                | some n => pure n
                | none => .error (.runtimeError "AttributeError")
              let in_edge_name ←
                match e.rightColName? with
                | some n => pure n
                | none => .error (.runtimeError "AttributeError")
              let base_column_name := out_edge_name
              let schema_type ← _get_schema_type node ctx
              let (recursive_table, ctx) := ctx.alloc
                (.tableAlias (ctx.compiler_metadata.get_table schema_type))
              pure (out_edge_name, in_edge_name, base_column_name, recursive_table, ctx)
          | .triple traversal_edge recursive_table final_edge => do
              let out_edge_name ←
                match final_edge.rightColName? with
                | some n => pure n
                | none => .error (.runtimeError "AttributeError")
              let in_edge_name ←
                match traversal_edge.rightColName? with
                | some n => pure n
                | none => .error (.runtimeError "AttributeError")
              let base_column_name ←
                match traversal_edge.leftColName? with
                | some n => pure n
                | none => .error (.runtimeError "AttributeError")
              pure (out_edge_name, in_edge_name, base_column_name, recursive_table, ctx)
        let direction ← _get_block_direction node.block
        let (out_edge_name, in_edge_name) :=
          if direction == INBOUND_EDGE_DIRECTION then (in_edge_name, out_edge_name)
          else (out_edge_name, in_edge_name)
        let anchor_query := recursiveAnchorQuery selectable octe base_column_name
          out_edge_name in_edge_name link_col.name
        let (recursive_cte, ctx) := ctx.alloc (.cte anchor_query true)
        let recursive_query := recursiveTermQuery recursive_table recursive_cte
          out_edge_name in_edge_name node.block.depth
        let recursion_combinator := ctx.compiler_metadata.db_backend.recursion_combinator
        if !cte_hasattr recursion_combinator then
          .error (.assertionError
            ("Cannot combine anchor and recursive clauses with operation \"" ++
              recursion_combinator ++ "\""))
        else do
          let (combined, ctx) := ctx.alloc
            (.compound recursion_combinator recursive_cte recursive_query)
          let from_clause ← ctxGet ctx.query_path_to_from_clause node.query_path
          let from_clause := FromClause.join from_clause (.base combined)
            (.eq (.col selectable base_column_name) (.col combined out_edge_name)) false
          let from_clause := FromClause.join from_clause (.base octe)
            (.eq (.col combined in_edge_name) (.col octe link_col.name)) false
          let ctx := { ctx with
            query_path_to_from_clause :=
              updMap ctx.query_path_to_from_clause node.query_path (some from_clause) }
          let out_link := SqlExpr.label (.col combined in_edge_name)
            (anonLabelName ctx.fresh)
          let ctx := { ctx with fresh := ctx.fresh + 1 }
          let pair ← ctxGet ctx.query_path_to_recursion_columns node.query_path
          let ctx := { ctx with
            query_path_to_recursion_columns :=
              updMap ctx.query_path_to_recursion_columns node.query_path
                (some (pair.1, some out_link)) }
          return (some out_link, ctx)
    | _, _ => .error (.assertionError "")
  else
    return (none, ctx)

/-- `_update_context_paths`: repoint the node's from-clause and every
visited node's selectable at the freshly materialized CTE. -/
def _update_context_paths (node : SqlNode) (visited_nodes : List SqlNode) (cte : Nat)
    (ctx : CompilationContext) : CompilationContext :=
  let ctx := { ctx with
    query_path_to_from_clause :=
      updMap ctx.query_path_to_from_clause node.query_path (some (.base cte)) }
  visited_nodes.foldl
    (fun ctx visited_node =>
      { ctx with
        query_path_to_selectable :=
          updMap ctx.query_path_to_selectable visited_node.query_path (some cte) })
    ctx

/-- `_get_recursive_join_condition`: the constructed (non-FK) equality
joining an outer scope to a completed recursive clause on the recursion's
link-column pair. -/
def _get_recursive_join_condition (node recursive_node : SqlNode)
    (in_column out_column : SqlExpr) (ctx : CompilationContext) :
    Except CompileErr SqlExpr := do
  let selectable ← _get_node_selectable node ctx
  let recursive_selectable ← _get_node_selectable recursive_node ctx
  return (.eq (.col selectable in_column.name) (.col recursive_selectable out_column.name))

/-- The result of `_query_tree_to_query`: the final query at the root, the
outbound recursion column elsewhere. -/
inductive QTQResult where
  | finalQuery (q : SelectQuery)
  | outColumn (c : Option SqlExpr)

mutual

/-- `_query_tree_to_query`: flatten the non-recursive subtree, build the
recursive clause when re-entered for a Recurse node, materialize the node
as a CTE, compile and join the deferred recursive subtrees, and either
return the unwrapped final query (root) or the outbound link column.  The
`fuel` argument bounds the (terminating) recursion of the source; it
decreases on every re-entry and on every deferred recursion processed. -/
def _query_tree_to_query : Nat → SqlNode → CompilationContext →
    Option SqlExpr → Option Nat → Except CompileErr (QTQResult × CompilationContext)
  | 0, _, _, _, _ => .error .outOfFuel
  | fuel + 1, node, ctx, recursion_link_column, outer_cte =>
    match _flatten_and_join_nonrecursive_nodes node ctx with
    | .error e => .error e
    | .ok ((node1, visited_nodes), ctx) =>
      match _create_recursive_clause node1 ctx recursion_link_column outer_cte with
      | .error e => .error e
      | .ok (recursion_out_column, ctx) =>
        match _create_query node1 false ctx with
        | .error e => .error e
        | .ok (q, ctx) =>
          let (cte, ctx) := ctx.alloc (.cte q false)
          let ctx := _update_context_paths node1 visited_nodes cte ctx
          match recursionsLoop fuel node1 cte node1.recursions ctx with
          | .error e => .error e
          | .ok ctx =>
            if node1.block.kind = .queryRoot then
              match _create_query node1 true ctx with
              | .error e => .error e
              | .ok (fq, ctx) => .ok (.finalQuery fq, ctx)
            else
              .ok (.outColumn recursion_out_column, ctx)

/-- The loop of `_flatten_and_join_recursive_nodes` over `node.recursions`:
compile each deferred recursion against the materialized CTE, flatten its
output fields upward, and join it back on the recursion link columns. -/
def recursionsLoop : Nat → SqlNode → Nat → List SqlNode → CompilationContext →
    Except CompileErr CompilationContext
  | _, _, _, [], ctx => .ok ctx
  | 0, _, _, _ :: _, _ => .error .outOfFuel
  | fuel + 1, node, cte, recursive_node :: rest, ctx =>
    match ctxGet ctx.query_path_to_recursion_columns recursive_node.query_path with
    | .error e => .error e
    | .ok pair =>
      let recursion_source_column := pair.1
      match _query_tree_to_query fuel recursive_node ctx
          (some recursion_source_column) (some cte) with
      | .error e => .error e
      | .ok (res, ctx) =>
        match res with
        | .finalQuery _ => .error (.runtimeError "AttributeError")
        | .outColumn none => .error (.runtimeError "AttributeError")
        | .outColumn (some recursion_sink_column) =>
          let ctx := _flatten_output_fields node recursive_node ctx
          match _get_recursive_join_condition node recursive_node recursion_source_column
              recursion_sink_column ctx with
          | .error e => .error e
          | .ok onclause =>
            match _join_nodes node recursive_node (.binary onclause) ctx with
            | .error e => .error e
            | .ok ctx => recursionsLoop fuel node cte rest ctx

end

/-- `_flatten_and_join_recursive_nodes`: for each deferred recursion,
compile its subtree against the just-materialized CTE, flatten its output
fields upward, and join it back on the recursion link columns. -/
def _flatten_and_join_recursive_nodes (fuel : Nat) (node : SqlNode) (cte : Nat)
    (ctx : CompilationContext) : Except CompileErr CompilationContext :=
  recursionsLoop fuel node cte node.recursions ctx

/-- The input to `emit_code_from_ir`: the lowered tree plus the per-path
annotation maps produced by the upstream lowering passes. -/
structure SqlQueryTree where
  root : SqlNode
  query_path_to_location_info : QueryPath → Option LocationInfo
  query_path_to_filter : QueryPath → Option (List FilterEntry)
  query_path_to_output_fields : QueryPath → Option (List (String × OutputEntry))
  query_path_to_tag_fields : QueryPath → List TagField

/-- `emit_code_from_ir`: build a fresh compilation context over the tree's
annotation maps and compile the root.  The fuel is one more than the node
count with margin, which bounds the fuel consumed by re-entries into
`_query_tree_to_query` and by the deferred-recursion loops. -/
def emit_code_from_ir (sql_query_tree : SqlQueryTree) (compiler_metadata : CompilerMetadata) :
    Except CompileErr (QTQResult × CompilationContext) :=
  let context : CompilationContext :=
    { query_path_to_selectable := fun _ => none
      query_path_to_from_clause := fun _ => none
      query_path_to_location_info := sql_query_tree.query_path_to_location_info
      query_path_to_recursion_columns := fun _ => none
      query_path_to_filter := sql_query_tree.query_path_to_filter
      query_path_to_output_fields := sql_query_tree.query_path_to_output_fields
      query_path_field_renames := fun _ => []
      query_path_to_tag_fields := sql_query_tree.query_path_to_tag_fields
      compiler_metadata := compiler_metadata
      selectable_defs := fun _ => none
      fresh := 0 }
  _query_tree_to_query (2 * nodeCount sql_query_tree.root + 2) sql_query_tree.root context
    none none

/-! Concrete fixtures used by the witness and counterexample theorems:
a schema with one `animal` table for the `Animal` type and a
self-referencing parent/child foreign key, compiled by a backend whose
recursion combinator is `union_all`. -/

/-- Fixture metadata: the `animal` table, the `Animal` type mapping, the
self-referencing FK `animal_id = parentof_id`, and a `union_all` backend. -/
def fixMetadata : CompilerMetadata :=
  { tableNames := ["animal"]
    tableForType := fun t => if t = "Animal" then "animal" else t
    db_backend := { recursion_combinator := "union_all" }
    joinConditionSpec := fun a b =>
      if a = "animal" ∧ b = "animal" then
        .binaryJoin ⟨"animal_id", true, "parentof_id", false⟩
      else .unresolvable
    joincondScanSpec := fun _ _ => [] }

/-- A compilation context with empty maps over the fixture metadata. -/
def emptyCtx : CompilationContext :=
  { query_path_to_selectable := fun _ => none
    query_path_to_from_clause := fun _ => none
    query_path_to_location_info := fun _ => none
    query_path_to_recursion_columns := fun _ => none
    query_path_to_filter := fun _ => none
    query_path_to_output_fields := fun _ => none
    query_path_field_renames := fun _ => []
    query_path_to_tag_fields := fun _ => []
    compiler_metadata := fixMetadata
    selectable_defs := fun _ => none
    fresh := 0 }

/-- Context for the join-kind witness: parent `["Animal"]` on selectable 0,
optional child (`optional_scopes_depth = 1`) on selectable 1. -/
def witnessJoinCtx : CompilationContext :=
  { emptyCtx with
    query_path_to_location_info := fun p =>
      if p = ["Animal", "out_Animal_ParentOf"] then some ⟨"Animal", 1⟩
      else if p = ["Animal"] then some ⟨"Animal", 0⟩ else none
    query_path_to_from_clause := fun p =>
      if p = ["Animal"] then some (.base 0)
      else if p = ["Animal", "out_Animal_ParentOf"] then some (.base 1) else none }

/-- Metadata fixture for the junction ambiguity case: both the short
(`Animal_FriendsWith`) and the type-suffixed (`Animal_FriendsWith_Animal`)
junction tables exist. -/
def fixMetadataBoth : CompilerMetadata :=
  { fixMetadata with
    tableNames := ["animal", "Animal_FriendsWith", "Animal_FriendsWith_Animal"] }

/-- Outer node fixture for join-resolution claims. -/
def joinOuterNode : SqlNode := .mk ["Animal"] ⟨.queryRoot, "", "", 0⟩ [] []

/-- Inner node fixture: an outbound `Animal_FriendsWith` traversal. -/
def joinInnerNode : SqlNode :=
  .mk ["Animal", "out_Animal_FriendsWith"] ⟨.traverse, "out", "Animal_FriendsWith", 0⟩ [] []

/-- Inner node fixture: an outbound `Animal_ParentOf` traversal. -/
def joinInnerNodePO : SqlNode :=
  .mk ["Animal", "out_Animal_ParentOf"] ⟨.traverse, "out", "Animal_ParentOf", 0⟩ [] []

/-- A context with the two scopes of the join fixtures bound to aliased
animal tables 0 and 1, parameterized by the metadata. -/
def joinResolutionCtx (metadata : CompilerMetadata) : CompilationContext :=
  { emptyCtx with
    compiler_metadata := metadata
    query_path_to_selectable := fun p =>
      if p = ["Animal"] then some 0
      else if p = ["Animal", "out_Animal_FriendsWith"] then some 1
      else if p = ["Animal", "out_Animal_ParentOf"] then some 1
      else none
    query_path_to_location_info := fun p =>
      if p = ["Animal"] then some ⟨"Animal", 0⟩
      else if p = ["Animal", "out_Animal_FriendsWith"] then some ⟨"Animal", 0⟩
      else if p = ["Animal", "out_Animal_ParentOf"] then some ⟨"Animal", 0⟩
      else none
    selectable_defs := fun i =>
      if i = 0 ∨ i = 1 then some (.tableAlias "animal") else none
    fresh := 2 }

/-- Parent node for the flattening fixtures. -/
def flattenParent : SqlNode := .mk ["Animal"] ⟨.queryRoot, "", "", 0⟩ [] []

/-- Child node for the flattening fixtures. -/
def flattenChild : SqlNode :=
  .mk ["Animal", "out_Animal_ParentOf"] ⟨.traverse, "out", "Animal_ParentOf", 0⟩ [] []

/-- An output-field entry fixture owned by the child scope. -/
def childOutputEntry : OutputEntry :=
  (⟨⟨["Animal", "out_Animal_ParentOf"], "name"⟩⟩, "String", false)

/-- Context for the flattening claims: the child owns one filter, one
output field and one tag field; the parent owns one filter. -/
def flattenCtx : CompilationContext :=
  { emptyCtx with
    query_path_to_filter := fun p =>
      if p = ["Animal"] then some [(⟨.localField "name"⟩, ["Animal"])]
      else if p = ["Animal", "out_Animal_ParentOf"] then
        some [(⟨.localField "color"⟩, ["Animal", "out_Animal_ParentOf"])]
      else none
    query_path_to_output_fields := fun p =>
      if p = ["Animal"] then some []
      else if p = ["Animal", "out_Animal_ParentOf"] then
        some [("child_name", childOutputEntry)]
      else none
    query_path_to_tag_fields := fun p =>
      if p = ["Animal", "out_Animal_ParentOf"] then
        [⟨⟨["Animal", "out_Animal_ParentOf"], "name"⟩⟩]
      else [] }

/-- A Recurse node fixture: inbound `Animal_ParentOf` with depth bound 3. -/
def recNodeFix : SqlNode :=
  .mk ["Animal", "in_Animal_ParentOf"] ⟨.recurse, "in", "Animal_ParentOf", 3⟩ [] []

/-- Context fixture for the recursive-clause claims: the Recurse node's
scope is bound to aliased animal table 1, its recursion link column
`animal_id` registered with no outbound column yet, allocator at 6. -/
def recCtx : CompilationContext :=
  { emptyCtx with
    query_path_to_selectable := fun p =>
      if p = ["Animal", "in_Animal_ParentOf"] then some 1 else none
    query_path_to_location_info := fun p =>
      if p = ["Animal", "in_Animal_ParentOf"] then some ⟨"Animal", 0⟩ else none
    query_path_to_from_clause := fun p =>
      if p = ["Animal", "in_Animal_ParentOf"] then some (.base 1) else none
    query_path_to_recursion_columns := fun p =>
      if p = ["Animal", "in_Animal_ParentOf"] then some (.col 0 "animal_id", none) else none
    selectable_defs := fun i => if i = 0 ∨ i = 1 then some (.tableAlias "animal") else none
    fresh := 6 }

/-- The same context under a backend whose declared recursion combinator
`intersect` is a set operation a SQLAlchemy CTE does not expose. -/
def recCtxBad : CompilationContext :=
  { recCtx with
    compiler_metadata := { fixMetadata with
      db_backend := { recursion_combinator := "intersect" } } }

/-- The same context under a backend whose declared combinator `join` is
an attribute a CTE does expose (though not a set operation): the
`hasattr` check passes and compilation proceeds without any error. -/
def recCtxJoin : CompilationContext :=
  { recCtx with
    compiler_metadata := { fixMetadata with
      db_backend := { recursion_combinator := "join" } } }

/-- A row of the recursive term in which the prior depth is 0, the
accumulated path is `"12,"`, and the newly reached value is `1`. -/
def cexRow : Nat → String → SqlVal := fun t n =>
  if t = 7 ∧ n = DEPTH_INTERNAL_NAME then .vint 0
  else if t = 7 ∧ n = PATH_INTERNAL_NAME then .vstr "12,"
  else if t = 6 ∧ n = "parentof_id" then .vint 1
  else .vnull

/-- A row of the recursive term whose new value `7` is already a token of
the accumulated path `"7,"`. -/
def tokenRow : Nat → String → SqlVal := fun t n =>
  if t = 7 ∧ n = DEPTH_INTERNAL_NAME then .vint 0
  else if t = 7 ∧ n = PATH_INTERNAL_NAME then .vstr "7,"
  else if t = 6 ∧ n = "parentof_id" then .vint 7
  else .vnull

/-- Whether an `Except` computation succeeded. -/
def exceptIsOk {ε α : Type} : Except ε α → Bool
  | .ok _ => true
  | .error _ => false

/-- A root-only query tree fixture: one scope, one requested output. -/
def soloRoot : SqlNode := .mk ["Animal"] ⟨.queryRoot, "", "", 0⟩ [] []

/-- Initial compilation context for the root-only pipeline fixture. -/
def soloCtx : CompilationContext :=
  { emptyCtx with
    query_path_to_location_info := fun p =>
      if p = ["Animal"] then some ⟨"Animal", 0⟩ else none
    query_path_to_filter := fun p => if p = ["Animal"] then some [] else none
    query_path_to_output_fields := fun p =>
      if p = ["Animal"] then some [("name_alias", (⟨⟨["Animal"], "name"⟩⟩, "String", false))]
      else none }

/-- A context in which the root scope is already materialized (selectable
and from-clause point at CTE 3), as `_create_query` sees it when emitting
the final query. -/
def soloQueryCtx : CompilationContext :=
  { soloCtx with
    query_path_to_selectable := fun p => if p = ["Animal"] then some 3 else none
    query_path_to_from_clause := fun p => if p = ["Animal"] then some (.base 3) else none }

/-- The root-only fixture as a full `emit_code_from_ir` input tree. -/
def soloTree : SqlQueryTree :=
  { root := soloRoot
    query_path_to_location_info := soloCtx.query_path_to_location_info
    query_path_to_filter := soloCtx.query_path_to_filter
    query_path_to_output_fields := soloCtx.query_path_to_output_fields
    query_path_to_tag_fields := soloCtx.query_path_to_tag_fields }

/-- The tree as the source leaves it after one run: `emit_code_from_ir`
installs the tree's tag-field, filter and output-field dicts into the
compilation context WITHOUT copying them (emit_sql.py lines 37-40), and
compilation mutates those shared dicts in place (filters merged upward and
child entries deleted, lines 230-233; tag lists extended, line 243; child
output entries deleted, line 244; surviving output entries rewritten with
their `is_renamed` flag set to True, line 307), so after a run the tree's
annotation maps hold exactly the final context's values.  Running
`emit_code_from_ir` a second time on the same tree object is therefore,
in this embedding, a run on this tree.  (The tree's nodes are mutated as
well — `recursions` lists are extended in place at line 234 — but the
fixture root has neither children nor recursions, so its nodes are
unchanged.)  The model does not track the column set of a table alias, so
where the source's second run would raise a `KeyError` on
`selectable.c[field_alias]` for a renamed entry, the model's second run
instead emits the alias-named raw column — in either reading the second
run does not reproduce the first. -/
def treeAfterRun (tree : SqlQueryTree) (ctx : CompilationContext) : SqlQueryTree :=
  { tree with
    query_path_to_filter := ctx.query_path_to_filter
    query_path_to_output_fields := ctx.query_path_to_output_fields
    query_path_to_tag_fields := ctx.query_path_to_tag_fields }

/-- The final compilation context of the first fixture run. -/
def soloCtxAfter : CompilationContext :=
  match emit_code_from_ir soloTree fixMetadata with
  | .ok p => p.2
  | .error _ => emptyCtx

/-- The fixture tree as the first run leaves it. -/
def soloTree2 : SqlQueryTree := treeAfterRun soloTree soloCtxAfter

/-- The final compilation context of the second run, on the mutated tree. -/
def soloCtxAfter2 : CompilationContext :=
  match emit_code_from_ir soloTree2 fixMetadata with
  | .ok p => p.2
  | .error _ => emptyCtx

/-- The result value of the first fixture run. -/
def soloRes1 : QTQResult :=
  match emit_code_from_ir soloTree fixMetadata with
  | .ok p => p.1
  | .error _ => .outColumn none

/-- The result value of the second fixture run. -/
def soloRes2 : QTQResult :=
  match emit_code_from_ir soloTree2 fixMetadata with
  | .ok p => p.1
  | .error _ => .outColumn none

/-- The root scope's materialized CTE query after the first run. -/
def soloScopeQuery1 : SelectQuery :=
  match soloCtxAfter.selectable_defs 1 with
  | some (.cte q _) => q
  | _ => ⟨[], false, .base 0, []⟩

/-- The root scope's materialized CTE query after the second run. -/
def soloScopeQuery2 : SelectQuery :=
  match soloCtxAfter2.selectable_defs 1 with
  | some (.cte q _) => q
  | _ => ⟨[], false, .base 0, []⟩

/-- A deep recursion fixture: the Recurse node hangs off the child scope,
so its hoisting into the root crosses one level. -/
def hoistRecNode : SqlNode :=
  .mk ["Animal", "out_Animal_ParentOf", "in_Animal_ParentOf"]
    ⟨.recurse, "in", "Animal_ParentOf", 3⟩ [] []

/-- The child scope owning the deep recursion. -/
def hoistChild : SqlNode :=
  .mk ["Animal", "out_Animal_ParentOf"] ⟨.traverse, "out", "Animal_ParentOf", 0⟩ []
    [hoistRecNode]

/-- The root of the hoisting fixture. -/
def hoistRoot : SqlNode := .mk ["Animal"] ⟨.queryRoot, "", "", 0⟩ [hoistChild] []

/-- Context for the hoisting fixture: location info for all three scopes. -/
def hoistCtx : CompilationContext :=
  { emptyCtx with
    query_path_to_location_info := fun p =>
      if p = ["Animal"] ∨ p = ["Animal", "out_Animal_ParentOf"] ∨
          p = ["Animal", "out_Animal_ParentOf", "in_Animal_ParentOf"] then
        some ⟨"Animal", 0⟩
      else none }

/-! Helper lemmas shared by several verification theorems. -/

/-- Any member of a list stays a member after interspersing a separator. -/
theorem memIntersperse {α : Type} {t sep : α} {L : List α} (h : t ∈ L) :
    t ∈ L.intersperse sep := by
  induction L with
  | nil => cases h
  | cons a l ih =>
    cases l with
    | nil => simpa using h
    | cons b l2 =>
      rw [List.intersperse_cons_cons]
      rcases List.mem_cons.mp h with rfl | h2
      · exact List.mem_cons_self _ _
      · exact List.mem_cons_of_mem _ (List.mem_cons_of_mem _ (ih h2))

/-- Every block produced by splitting on a separator is an infix of the
original list. -/
theorem memSplitOnInfix {c : Char} {xs t : List Char} (h : t ∈ xs.splitOn c) :
    t <:+: xs := by
  have hx : ([c].intercalate (xs.splitOn c)) = xs := List.intercalate_splitOn xs c
  rw [← hx]
  unfold List.intercalate
  exact List.infix_of_mem_flatten (memIntersperse h)

/-- A whole path token is in particular a substring of the path: the
emitted substring-containment cycle guard rejects at least every row the
token-membership guard would reject. -/
theorem isPathToken_strContains {path tok : String} (h : isPathToken path tok = true) :
    strContains path tok = true := by
  unfold isPathToken pathTokens at h
  unfold strContains
  simp only [decide_eq_true_eq] at h ⊢
  exact memSplitOnInfix h

/-- C9 counterexample: running `emit_code_from_ir` twice on the same input
tree is, after the first run, a run on the tree the first run mutated in
place (`treeAfterRun`: the context holds the tree's own annotation dicts
uncopied, emit_sql.py lines 37-40, and compilation rewrites them — in
particular line 307 flips each surviving output entry's `is_renamed` flag
to True).  Both runs succeed in the model but do not produce structurally
identical query objects: the first run materializes the root scope's CTE
with the labeled output column `animal.name AS name_alias`, while the
second run — seeing `is_renamed` already True — materializes it with the
bare column `name_alias`, a structurally different query (in the source
this second run raises a `KeyError`, since the fresh table alias has no
column named `name_alias`). -/
theorem claim_C9_counterexample :
    emit_code_from_ir soloTree fixMetadata = .ok (soloRes1, soloCtxAfter) ∧
    emit_code_from_ir soloTree2 fixMetadata = .ok (soloRes2, soloCtxAfter2) ∧
    soloCtxAfter.selectable_defs 1 = some (.cte soloScopeQuery1 false) ∧
    soloCtxAfter2.selectable_defs 1 = some (.cte soloScopeQuery2 false) ∧
    soloScopeQuery1.columns = [.label (.col 0 "name") "name_alias"] ∧
    soloScopeQuery2.columns = [.col 0 "name_alias"] ∧
    soloScopeQuery1.columns ≠ soloScopeQuery2.columns := by
  refine ⟨rfl, rfl, rfl, rfl, rfl, rfl, ?_⟩
  intro h
  rw [show soloScopeQuery1.columns = [.label (.col 0 "name") "name_alias"] from rfl,
    show soloScopeQuery2.columns = [.col 0 "name_alias"] from rfl] at h
  simp at h

/-- C9 (corrected): compilation is deterministic as a function of the
input VALUES — the compiler consults nothing besides the tree and the
metadata, so two runs on structurally equal, independently constructed
trees with fresh contexts produce identical results — but running
`emit_code_from_ir` twice on the SAME tree is not reproducible: the first
run mutates the tree's annotation dicts in place through the uncopied
context (emit_sql.py lines 37-40, 230-244 and 307), and the second run,
on the mutated tree, materializes a structurally different scope query
for the same scope. -/
theorem claim_C9 :
    (∀ (t1 t2 : SqlQueryTree) (m : CompilerMetadata),
      t1.root = t2.root →
      t1.query_path_to_location_info = t2.query_path_to_location_info →
      t1.query_path_to_filter = t2.query_path_to_filter →
      t1.query_path_to_output_fields = t2.query_path_to_output_fields →
      t1.query_path_to_tag_fields = t2.query_path_to_tag_fields →
      emit_code_from_ir t1 m = emit_code_from_ir t2 m) ∧
    (emit_code_from_ir soloTree fixMetadata = Except.ok (soloRes1, soloCtxAfter) ∧
      emit_code_from_ir (treeAfterRun soloTree soloCtxAfter) fixMetadata =
        Except.ok (soloRes2, soloCtxAfter2) ∧
      soloScopeQuery1.columns ≠ soloScopeQuery2.columns) := by
  constructor
  · intro t1 t2 m h1 h2 h3 h4 h5
    obtain ⟨r1, l1, f1, o1, g1⟩ := t1
    obtain ⟨r2, l2, f2, o2, g2⟩ := t2
    simp only at h1 h2 h3 h4 h5
    subst h1; subst h2; subst h3; subst h4; subst h5
    rfl
  · refine ⟨rfl, rfl, ?_⟩
    intro h
    rw [show soloScopeQuery1.columns = [.label (.col 0 "name") "name_alias"] from rfl,
      show soloScopeQuery2.columns = [.col 0 "name_alias"] from rfl] at h
    simp at h

/-- C9 witness: value-level determinism applied at the concrete fixture
tree, together with the concrete second-run divergence. -/
theorem claim_C9_witness :
    emit_code_from_ir soloTree fixMetadata = emit_code_from_ir soloTree fixMetadata ∧
    soloScopeQuery1.columns ≠ soloScopeQuery2.columns :=
  ⟨claim_C9.1 soloTree soloTree fixMetadata rfl rfl rfl rfl rfl, claim_C9.2.2.2⟩

/-- C3: `_join_nodes` joins the child's from-clause onto the parent's with
a LEFT OUTER join exactly when the child's `optional_scopes_depth` is
positive, and an INNER join otherwise — both for a direct binary ON clause
and for the two-step join through a junction table. -/
theorem claim_C3 (parent_node child_node : SqlNode) (onclause : JoinResult)
    (ctx : CompilationContext) (li : LocationInfo) (pfc cfc : FromClause)
    (hli : ctx.query_path_to_location_info child_node.query_path = some li)
    (hpf : ctx.query_path_to_from_clause parent_node.query_path = some pfc)
    (hcf : ctx.query_path_to_from_clause child_node.query_path = some cfc)
    (hne : parent_node.query_path ≠ child_node.query_path) :
    ∃ ctx', _join_nodes parent_node child_node onclause ctx = .ok ctx' ∧
      ctx'.query_path_to_from_clause child_node.query_path = none ∧
      (∀ e, onclause = .binary e →
        ctx'.query_path_to_from_clause parent_node.query_path =
          some (.join pfc cfc e (decide (0 < li.optional_scopes_depth)))) ∧
      (∀ a j b, onclause = .triple a j b →
        ctx'.query_path_to_from_clause parent_node.query_path =
          some (.join (.join pfc (.base j) a (decide (0 < li.optional_scopes_depth)))
            cfc b (decide (0 < li.optional_scopes_depth)))) := by
  unfold _join_nodes ctxGet
  rw [hli, hpf, hcf]
  by_cases hopt : 0 < li.optional_scopes_depth
  · cases onclause with
    | binary e =>
        refine ⟨_, by simp [hopt, bind, Except.bind, pure, Except.pure]; rfl, ?_, ?_, ?_⟩
        · simp [hopt, bind, Except.bind, pure, Except.pure, updMap]
        · intro e' he'
          cases he'
          simp [hopt, bind, Except.bind, pure, Except.pure, updMap, hne]
        · intro a j b hab
          cases hab
    | triple a j b =>
        refine ⟨_, by simp [hopt, bind, Except.bind, pure, Except.pure]; rfl, ?_, ?_, ?_⟩
        · simp [hopt, bind, Except.bind, pure, Except.pure, updMap]
        · intro e' he'
          cases he'
        · intro a' j' b' hab
          cases hab
          simp [hopt, bind, Except.bind, pure, Except.pure, updMap, hne]
  · cases onclause with
    | binary e =>
        refine ⟨_, by simp [hopt, bind, Except.bind, pure, Except.pure]; rfl, ?_, ?_, ?_⟩
        · simp [hopt, bind, Except.bind, pure, Except.pure, updMap]
        · intro e' he'
          cases he'
          simp [hopt, bind, Except.bind, pure, Except.pure, updMap, hne]
        · intro a j b hab
          cases hab
    | triple a j b =>
        refine ⟨_, by simp [hopt, bind, Except.bind, pure, Except.pure]; rfl, ?_, ?_, ?_⟩
        · simp [hopt, bind, Except.bind, pure, Except.pure, updMap]
        · intro e' he'
          cases he'
        · intro a' j' b' hab
          cases hab
          simp [hopt, bind, Except.bind, pure, Except.pure, updMap, hne]

/-- C3 witness: on a concrete optional child (depth 1) with a binary ON
clause, the emitted join is a LEFT OUTER join. -/
theorem claim_C3_witness :
    ∃ ctx', _join_nodes (.mk ["Animal"] ⟨.queryRoot, "", "", 0⟩ [] [])
        (.mk ["Animal", "out_Animal_ParentOf"] ⟨.traverse, "out", "Animal_ParentOf", 0⟩ [] [])
        (.binary (.eq (.col 0 "animal_id") (.col 1 "parentof_id"))) witnessJoinCtx = .ok ctx' ∧
      ctx'.query_path_to_from_clause ["Animal"] =
        some (.join (.base 0) (.base 1)
          (.eq (.col 0 "animal_id") (.col 1 "parentof_id")) true) := by
  obtain ⟨ctx', hrun, hdel, hbin, htrip⟩ := claim_C3
    (.mk ["Animal"] ⟨.queryRoot, "", "", 0⟩ [] [])
    (.mk ["Animal", "out_Animal_ParentOf"] ⟨.traverse, "out", "Animal_ParentOf", 0⟩ [] [])
    (.binary (.eq (.col 0 "animal_id") (.col 1 "parentof_id"))) witnessJoinCtx
    ⟨"Animal", 1⟩ (.base 0) (.base 1) rfl rfl rfl (by decide)
  exact ⟨ctx', hrun, by simpa using hbin _ rfl⟩
theorem lookup_mapReplace_self {β : Type} (l : List (String × β)) (k : String) (v : β)
    (hany : l.any (fun p => p.1 == k) = true) :
    (l.map (fun p => bif p.1 == k then (k, v) else p)).lookup k = some v := by
  induction l with
  | nil => simp at hany
  | cons a rest ih =>
      cases h : (a.1 == k) with
      | true => simp only [List.map_cons, h, cond_true, List.lookup, beq_self_eq_true]
      | false =>
          have hr : rest.any (fun p => p.1 == k) = true := by
            simpa [List.any_cons, h] using hany
          have hka : (k == a.1) = false :=
            beq_eq_false_iff_ne.mpr (fun hkk => (beq_eq_false_iff_ne.mp h) hkk.symm)
          simp only [List.map_cons, h, cond_false, List.lookup, hka]
          exact ih hr

theorem lookup_mapReplace_ne {β : Type} (l : List (String × β)) (k k' : String) (v : β)
    (hne : k' ≠ k) :
    (l.map (fun p => bif p.1 == k then (k, v) else p)).lookup k' = l.lookup k' := by
  induction l with
  | nil => rfl
  | cons a rest ih =>
      cases h : (a.1 == k) with
      | true =>
          have hk : (k' == k) = false := beq_eq_false_iff_ne.mpr hne
          have hka : (k' == a.1) = false := by
            have ha : a.1 = k := beq_iff_eq.mp h
            rw [ha]
            exact hk
          simp only [List.map_cons, h, cond_true, List.lookup, hk, hka]
          exact ih
      | false =>
          simp only [List.map_cons, h, cond_false, List.lookup]
          cases hk : (k' == a.1) with
          | true => rfl
          | false => exact ih

theorem lookup_append_single_self {β : Type} (l : List (String × β)) (k : String) (v : β)
    (hnone : l.lookup k = none) : (l ++ [(k, v)]).lookup k = some v := by
  induction l with
  | nil => simp [List.lookup]
  | cons a rest ih =>
      simp only [List.lookup] at hnone
      cases hk : (k == a.1) with
      | true => simp [hk] at hnone
      | false =>
          rw [hk] at hnone
          simp only [List.cons_append, List.lookup, hk]
          exact ih hnone

theorem lookup_append_single_ne {β : Type} (l : List (String × β)) (k k' : String) (v : β)
    (hne : k' ≠ k) : (l ++ [(k, v)]).lookup k' = l.lookup k' := by
  induction l with
  | nil =>
      simp only [List.nil_append, List.lookup, beq_eq_false_iff_ne.mpr hne]
  | cons a rest ih =>
      simp only [List.cons_append, List.lookup]
      cases hk : (k' == a.1) with
      | true => rfl
      | false => exact ih

theorem lookup_eq_none_of_any_false {β : Type} (l : List (String × β)) (k : String)
    (hany : l.any (fun p => p.1 == k) = false) : l.lookup k = none := by
  induction l with
  | nil => rfl
  | cons a rest ih =>
      simp only [List.any_cons, Bool.or_eq_false_iff] at hany
      have ha : a.1 ≠ k := beq_eq_false_iff_ne.mp hany.1
      have hka : (k == a.1) = false := beq_eq_false_iff_ne.mpr (fun hkk => ha hkk.symm)
      simp only [List.lookup, hka]
      exact ih hany.2

/-- Looking up the just-assigned key of a Python-dict assignment yields the
assigned value. -/
theorem lookup_assocSet_self {β : Type} (l : List (String × β)) (k : String) (v : β) :
    (assocSet l k v).lookup k = some v := by
  unfold assocSet
  by_cases hany : l.any (fun p => p.1 == k) = true
  · simp only [hany, if_true]
    exact lookup_mapReplace_self l k v hany
  · simp only [hany, if_false]
    exact lookup_append_single_self l k v
      (lookup_eq_none_of_any_false l k (by simp only [Bool.not_eq_true] at hany; exact hany))

/-- A Python-dict assignment leaves lookups of other keys unchanged. -/
theorem lookup_assocSet_ne {β : Type} (l : List (String × β)) (k k' : String) (v : β)
    (hne : k' ≠ k) : (assocSet l k v).lookup k' = l.lookup k' := by
  unfold assocSet
  by_cases hany : l.any (fun p => p.1 == k) = true
  · simp only [hany, if_true]
    exact lookup_mapReplace_ne l k k' v hne
  · simp only [hany, if_false]
    exact lookup_append_single_ne l k k' v hne

/-- Folding Python-dict assignments for keys other than `k` leaves the
lookup of `k` unchanged. -/
theorem foldl_assocSet_lookup_ne {β : Type} (l : List (String × β)) (k : String) :
    ∀ base : List (String × β), (∀ e ∈ l, e.1 ≠ k) →
      (l.foldl (fun acc e => assocSet acc e.1 e.2) base).lookup k = base.lookup k := by
  induction l with
  | nil => intro base _; rfl
  | cons a rest ih =>
      intro base hk
      simp only [List.foldl_cons]
      rw [ih (assocSet base a.1 a.2) (fun e he => hk e (List.mem_cons_of_mem _ he))]
      exact lookup_assocSet_ne base a.1 k a.2
        (fun hkk => hk a (List.mem_cons_self _ _) hkk.symm)

/-- Folding the child's dict entries into the parent's dict makes every
child binding (keys assumed distinct, as in a Python dict) retrievable from
the merged dict. -/
theorem foldl_assocSet_lookup_mem {β : Type} (l : List (String × β)) (k : String) (v : β) :
    ∀ base : List (String × β), (l.map Prod.fst).Nodup → l.lookup k = some v →
      (l.foldl (fun acc e => assocSet acc e.1 e.2) base).lookup k = some v := by
  induction l with
  | nil => intro base _ h; simp [List.lookup] at h
  | cons a rest ih =>
      intro base hnodup hlook
      simp only [List.map_cons, List.nodup_cons] at hnodup
      simp only [List.lookup] at hlook
      cases hk : (k == a.1) with
      | true =>
          rw [hk] at hlook
          have hkeq : k = a.1 := beq_iff_eq.mp hk
          simp only [List.foldl_cons]
          rw [foldl_assocSet_lookup_ne rest k (assocSet base a.1 a.2)
            (fun e he hek => hnodup.1 (hkeq ▸ hek ▸ List.mem_map_of_mem Prod.fst he))]
          rw [hkeq]
          rw [lookup_assocSet_self]
          simpa using hlook
      | false =>
          rw [hk] at hlook
          simp only [List.foldl_cons]
          exact ih (assocSet base a.1 a.2) hnodup.2 hlook

/-- C4 (amended): flattening a child into its parent merges the child's
filters, output fields and tag fields into the parent's entries and deletes
the child's filter and output-field entries; the child's tag-field entry,
however, is NOT deleted — it survives unchanged under the child's query
path (the source deletes only `query_path_to_filter` and
`query_path_to_output_fields`). -/
theorem claim_C4 (node child_node : SqlNode) (ctx : CompilationContext)
    (hne : node.query_path ≠ child_node.query_path)
    (hnodup : (((ctx.query_path_to_output_fields child_node.query_path).getD []).map
      Prod.fst).Nodup) :
    ((_flatten_node node child_node ctx).2.query_path_to_filter child_node.query_path
      = none) ∧
    ((_flatten_node node child_node ctx).2.query_path_to_output_fields child_node.query_path
      = none) ∧
    ((_flatten_node node child_node ctx).2.query_path_to_filter node.query_path =
      some ((ctx.query_path_to_filter node.query_path).getD [] ++
        (ctx.query_path_to_filter child_node.query_path).getD [])) ∧
    (∀ k v, ((ctx.query_path_to_output_fields child_node.query_path).getD []).lookup k
        = some v →
      ∃ fields, (_flatten_node node child_node ctx).2.query_path_to_output_fields
          node.query_path = some fields ∧ fields.lookup k = some v) ∧
    ((_flatten_node node child_node ctx).2.query_path_to_tag_fields node.query_path =
      ctx.query_path_to_tag_fields node.query_path ++
        ctx.query_path_to_tag_fields child_node.query_path) ∧
    ((_flatten_node node child_node ctx).2.query_path_to_tag_fields child_node.query_path =
      ctx.query_path_to_tag_fields child_node.query_path) := by
  unfold _flatten_node _flatten_output_fields
  have hne' : child_node.query_path ≠ node.query_path := fun h => hne h.symm
  refine ⟨?_, ?_, ?_, ?_, ?_, ?_⟩
  · simp [updMap]
  · simp [updMap]
  · simp [updMap, hne, hne']
  · intro k v hlk
    refine ⟨List.foldl (fun acc e => assocSet acc e.1 e.2)
      ((ctx.query_path_to_output_fields node.query_path).getD [])
      ((ctx.query_path_to_output_fields child_node.query_path).getD []), ?_, ?_⟩
    · simp [updMap, hne, hne']
    · exact foldl_assocSet_lookup_mem _ k v _ hnodup hlk
  · simp [updMap, updTot, hne, hne']
  · simp [updMap, updTot, hne, hne']

/-- C4 counterexample: the claim as stated says that after flattening no
context entry for the child's tags remains under the child's query path;
but on a child owning one tag field, the tag entry under the child's path
is still present and non-empty after `_flatten_node`. -/
theorem claim_C4_counterexample :
    (_flatten_node flattenParent flattenChild flattenCtx).2.query_path_to_tag_fields
        ["Animal", "out_Animal_ParentOf"] =
      [⟨⟨["Animal", "out_Animal_ParentOf"], "name"⟩⟩] ∧
    ([⟨⟨["Animal", "out_Animal_ParentOf"], "name"⟩⟩] : List TagField) ≠ [] := by
  exact ⟨rfl, by simp⟩

/-- C4 witness: the amended claim at the concrete flattening fixture — the
child's filter and output-field entries are gone, its filter was appended
to the parent's, its output field is retrievable from the parent's merged
entry, and its tag list survives under the child's path. -/
theorem claim_C4_witness :
    ((_flatten_node flattenParent flattenChild flattenCtx).2.query_path_to_filter
      flattenChild.query_path = none) ∧
    ((_flatten_node flattenParent flattenChild flattenCtx).2.query_path_to_output_fields
      flattenChild.query_path = none) ∧
    ((_flatten_node flattenParent flattenChild flattenCtx).2.query_path_to_filter
      flattenParent.query_path = some [(⟨.localField "name"⟩, ["Animal"]),
        (⟨.localField "color"⟩, ["Animal", "out_Animal_ParentOf"])]) ∧
    (∃ fields, ((_flatten_node flattenParent flattenChild flattenCtx).2.query_path_to_output_fields flattenParent.query_path) = some fields ∧ fields.lookup "child_name" = some childOutputEntry) ∧
    ((_flatten_node flattenParent flattenChild flattenCtx).2.query_path_to_tag_fields
      flattenChild.query_path = [⟨⟨["Animal", "out_Animal_ParentOf"], "name"⟩⟩]) := by
  obtain ⟨h1, h2, h3, h4, h5, h6⟩ := claim_C4 flattenParent flattenChild flattenCtx
    (by decide) (by decide)
  exact ⟨h1, h2, h3.trans (by rfl), h4 "child_name" childOutputEntry (by rfl),
    h6.trans (by rfl)⟩

/-- C2 (amended): junction-table resolution — if both the edge-named table
and the type-suffixed table exist, compilation fails fatally, but with a
bare `AssertionError` carrying no identifying message (the claim's
"names the offending type/edge/table" does not hold); if neither exists,
junction resolution returns no result and `_get_join_condition` falls
through to the direct foreign-key join. -/
theorem claim_C2 (outer_node inner_node : SqlNode) (ctx : CompilationContext)
    (oSel iSel : Nat) (ti : LocationInfo)
    (hos : ctx.query_path_to_selectable outer_node.query_path = some oSel)
    (his : ctx.query_path_to_selectable inner_node.query_path = some iSel)
    (hti : ctx.query_path_to_location_info inner_node.query_path = some ti) :
    (ctx.compiler_metadata.has_table inner_node.block.edge_name = true →
      ctx.compiler_metadata.has_table (inner_node.block.edge_name ++ "_" ++ ti.typeName)
        = true →
      _try_get_many_to_many_join_condition outer_node inner_node ctx =
        .error (.assertionError "")) ∧
    (ctx.compiler_metadata.has_table inner_node.block.edge_name = false →
      ctx.compiler_metadata.has_table (inner_node.block.edge_name ++ "_" ++ ti.typeName)
        = false →
      _try_get_many_to_many_join_condition outer_node inner_node ctx = .ok (none, ctx)) ∧
    (∀ p, ctx.compiler_metadata.has_table inner_node.block.edge_name = false →
      ctx.compiler_metadata.has_table (inner_node.block.edge_name ++ "_" ++ ti.typeName)
        = false →
      ctx.compiler_metadata.joinConditionSpec (ctx.underlyingName oSel)
        (ctx.underlyingName iSel) = .binaryJoin p →
      _get_join_condition outer_node inner_node ctx =
        .ok (.binary (instOnClause oSel iSel p), ctx)) := by
  have hm2m : ∀ hshort hlong,
      ctx.compiler_metadata.has_table inner_node.block.edge_name = hshort →
      ctx.compiler_metadata.has_table (inner_node.block.edge_name ++ "_" ++ ti.typeName)
        = hlong →
      hshort = false → hlong = false →
      _try_get_many_to_many_join_condition outer_node inner_node ctx = .ok (none, ctx) := by
    intro hshort hlong hs hl hsf hlf
    subst hsf hlf
    unfold _try_get_many_to_many_join_condition _get_node_selectable _get_schema_type ctxGet
    simp only [hos, his, hti, hs, hl, bind, Except.bind, pure, Except.pure]
    rfl
  refine ⟨?_, ?_, ?_⟩
  · intro hs hl
    unfold _try_get_many_to_many_join_condition _get_node_selectable _get_schema_type ctxGet
    simp only [hos, his, hti, hs, hl, bind, Except.bind, pure, Except.pure]
    rfl
  · intro hs hl
    exact hm2m false false hs hl rfl rfl
  · intro p hs hl hspec
    unfold _get_join_condition _get_node_selectable ctxGet
    rw [hos, his]
    simp only [bind, Except.bind, pure, Except.pure]
    rw [hm2m false false hs hl rfl rfl]
    simp [_try_get_direct_join_condition, hspec, instOnClause,
      SqlExpr.isBinaryExpression, pure, Except.pure]

/-- C2 counterexample: with both `Animal_FriendsWith` and
`Animal_FriendsWith_Animal` present, the failure is `AssertionError("")`,
whose empty message contains neither the edge name, nor the type name, nor
either table name — refuting the claim that the fatal error names the
offending type/edge/table. -/
theorem claim_C2_counterexample :
    _try_get_many_to_many_join_condition joinOuterNode joinInnerNode
        (joinResolutionCtx fixMetadataBoth) = .error (.assertionError "") ∧
    strContains "" "Animal_FriendsWith" = false ∧
    strContains "" "Animal" = false ∧
    strContains "" "Animal_FriendsWith_Animal" = false := by
  refine ⟨?_, by decide, by decide, by decide⟩
  exact (claim_C2 joinOuterNode joinInnerNode (joinResolutionCtx fixMetadataBoth)
    0 1 ⟨"Animal", 0⟩ rfl rfl rfl).1 (by decide) (by decide)

/-- C2 witness: with neither junction table present, junction resolution
returns no result and `_get_join_condition` resolves the direct FK join. -/
theorem claim_C2_witness :
    _try_get_many_to_many_join_condition joinOuterNode joinInnerNodePO
        (joinResolutionCtx fixMetadata) = .ok (none, joinResolutionCtx fixMetadata) ∧
    _get_join_condition joinOuterNode joinInnerNodePO (joinResolutionCtx fixMetadata) =
      .ok (.binary (.eq (.col 0 "animal_id") (.col 1 "parentof_id")),
        joinResolutionCtx fixMetadata) := by
  obtain ⟨h1, h2, h3⟩ := claim_C2 joinOuterNode joinInnerNodePO
    (joinResolutionCtx fixMetadata) 0 1 ⟨"Animal", 0⟩ rfl rfl rfl
  refine ⟨h2 (by decide) (by decide), ?_⟩
  have := h3 ⟨"animal_id", true, "parentof_id", false⟩ (by decide) (by decide) (by decide)
  simpa [instOnClause] using this

/-- C8: compiling a MANY-cardinality (collection membership) binary
composition requires the compiled left operand to be a bind parameter and
the compiled right operand to be a column; the parameter is marked
list-expanding, and any other operand shape raises a bare `AssertionError`
(an internal-defect error), never the user-facing compile error class. -/
theorem claim_C8 (operator opName : String) (l r : Expression) (sel : Nat)
    (li : LocationInfo) (ctx : CompilationContext) (L R : SqlExpr)
    (hop : OPERATORS operator = some ⟨opName, .MANY⟩)
    (hL : _expression_to_sql l sel li ctx = .ok L)
    (hR : _expression_to_sql r sel li ctx = .ok R) :
    (∀ pn pe t cn, L = .bindParam pn pe → R = .col t cn →
      _expression_to_sql (.binaryComposition operator l r) sel li ctx =
        .ok (.binOp opName (.col t cn) (.bindParam pn true))) ∧
    ((∀ pn pe, L ≠ .bindParam pn pe) →
      _expression_to_sql (.binaryComposition operator l r) sel li ctx =
        .error (.assertionError "")) ∧
    (∀ pn pe, L = .bindParam pn pe → (∀ t cn, R ≠ .col t cn) →
      _expression_to_sql (.binaryComposition operator l r) sel li ctx =
        .error (.assertionError "")) ∧
    (∀ msg, _expression_to_sql (.binaryComposition operator l r) sel li ctx ≠
      .error (.graphQLCompileError msg)) := by
  have hrun : _expression_to_sql (.binaryComposition operator l r) sel li ctx =
      (match L with
       | .bindParam pn _ =>
         (match R with
          | .col t n => Except.ok (.binOp opName (.col t n) (.bindParam pn true))
          | _ => Except.error (.assertionError ""))
       | _ => Except.error (.assertionError "")) := by
    simp only [_expression_to_sql]
    rw [hop]
    simp only [bind, Except.bind, pure, Except.pure]
    simp only [hL, hR]
    cases L <;> try rfl
    cases R <;> rfl
  refine ⟨?_, ?_, ?_, ?_⟩
  · intro pn pe t cn hLs hRs
    subst hLs hRs
    rw [hrun]
  · intro hnot
    rw [hrun]
    cases L with
    | bindParam pn pe => exact absurd rfl (hnot pn pe)
    | _ => rfl
  · intro pn pe hLs hnot
    subst hLs
    rw [hrun]
    cases R with
    | col t cn => exact absurd rfl (hnot t cn)
    | _ => rfl
  · intro msg
    rw [hrun]
    cases L with
    | bindParam pn pe =>
        cases R with
        | col t cn => simp
        | _ => simp
    | _ => simp

/-- C8 witness: `in_collection` over a bound variable (left) and a local
field (right) compiles to the column-receiving membership operation with
the bind parameter marked expanding. -/
theorem claim_C8_witness :
    _expression_to_sql (.binaryComposition "in_collection" (.var "names")
        (.localField "name")) 0 ⟨"Animal", 0⟩ emptyCtx =
      .ok (.binOp "in_" (.col 0 "name") (.bindParam "names" true)) :=
  (claim_C8 "in_collection" "in_" (.var "names") (.localField "name") 0 ⟨"Animal", 0⟩
    emptyCtx (.bindParam "names" false) (.col 0 "name") rfl rfl rfl).1
    "names" false 0 "name" rfl rfl

/-- Successful-run characterization of `_create_recursive_clause` when the
self-edge resolves to a direct binary equality: the anchor CTE, the
compound of anchor and recursive term under the backend combinator, and
the completed recursion-column pair, at predictable allocator ids. -/
theorem createRecursive_ok (node : SqlNode) (ctx : CompilationContext)
    (lc : SqlExpr) (octe : Nat) (s t1 t2 : Nat) (oe ie oe2 ie2 : String)
    (li : LocationInfo) (fc : FromClause) (inCol : SqlExpr) (prevOut : Option SqlExpr)
    (hkind : node.block.kind = .recurse)
    (hsel : ctx.query_path_to_selectable node.query_path = some s)
    (hedge : _get_join_condition node node ctx =
      .ok (.binary (.eq (.col t1 oe) (.col t2 ie)), ctx))
    (hli : ctx.query_path_to_location_info node.query_path = some li)
    (hfrom : ctx.query_path_to_from_clause node.query_path = some fc)
    (hrec : ctx.query_path_to_recursion_columns node.query_path = some (inCol, prevOut))
    (hnames : (if node.block.direction == INBOUND_EDGE_DIRECTION then (ie, oe)
      else (oe, ie)) = (oe2, ie2))
    (hsupp : cte_hasattr ctx.compiler_metadata.db_backend.recursion_combinator = true) :
    ∃ ctx', _create_recursive_clause node ctx (some lc) (some octe) =
        .ok (some (SqlExpr.label (.col (ctx.fresh + 2) ie2) (anonLabelName (ctx.fresh + 3))),
          ctx') ∧
      ctx'.selectable_defs (ctx.fresh + 1) =
        some (.cte (recursiveAnchorQuery s octe oe oe2 ie2 lc.name) true) ∧
      ctx'.selectable_defs (ctx.fresh + 2) =
        some (.compound ctx.compiler_metadata.db_backend.recursion_combinator (ctx.fresh + 1)
          (recursiveTermQuery ctx.fresh (ctx.fresh + 1) oe2 ie2 node.block.depth)) ∧
      ctx'.query_path_to_recursion_columns node.query_path =
        some (inCol, some (SqlExpr.label (.col (ctx.fresh + 2) ie2)
          (anonLabelName (ctx.fresh + 3)))) ∧
      ctx'.query_path_to_from_clause node.query_path =
        some (.join
          (.join fc (.base (ctx.fresh + 2))
            (.eq (.col s oe) (.col (ctx.fresh + 2) oe2)) false)
          (.base octe)
          (.eq (.col (ctx.fresh + 2) ie2) (.col octe lc.name)) false) := by
  unfold _create_recursive_clause _get_node_selectable _get_schema_type
    _get_block_direction ctxGet
  rw [hkind]
  simp only [hsel, hedge, hli, bind, Except.bind, pure, Except.pure, reduceIte,
    SqlExpr.leftColName?, SqlExpr.rightColName?, BlockKind.recurse.sizeOf_spec]
  simp only [CompilationContext.alloc, updMap]
  simp only [or_true, true_or, if_true, reduceIte, hsupp, Bool.not_true,
    Bool.false_eq_true, if_false, hfrom, hrec, hnames, bind, Except.bind, pure,
    Except.pure, updMap]
  refine ⟨_, rfl, ?_, ?_, ?_, ?_⟩ <;> simp [updMap, Nat.add_assoc]

/-- Evaluation of the recursive term's WHERE guard on a row: it holds
exactly when the prior depth is below the bound and the stringified new
value is NOT a substring of the accumulated path. -/
theorem recursiveTermWhereEval (rt rc : Nat) (oe ie : String) (bound : Nat)
    (env : Nat → String → SqlVal) (d : Int) (p : String) (v : Int)
    (hd : env rc DEPTH_INTERNAL_NAME = .vint d)
    (hp : env rc PATH_INTERNAL_NAME = .vstr p)
    (hv : env rt oe = .vint v) :
    whereHolds env (recursiveTermQuery rt rc oe ie bound) =
      (decide (d < (bound : Int)) && !(strContains p (toString v))) := by
  unfold whereHolds recursiveTermQuery
  simp only [evalAll, evalExpr, hd, hp, hv, truthy]
  cases hc : strContains p (toString v) with
  | true => simp [truthy, hc, show (SqlVal.vint 1 == SqlVal.vint 0) = false from rfl]
  | false => simp [truthy, hc, show (SqlVal.vint 0 == SqlVal.vint 0) = true from rfl]

/-- C7: for a Recurse node whose self-edge resolves to a direct binary
equality, the anchor term of the emitted recursive CTE selects the node's
base link column labeled as both edge columns, a literal depth 0, and a
path column that is the stringified base column concatenated with the
separator; it selects DISTINCT rows, and its sole FROM clause joins the
base column against the enclosing materialized scope's link column. -/
theorem claim_C7 (node : SqlNode) (ctx : CompilationContext)
    (lc : SqlExpr) (octe : Nat) (s t1 t2 : Nat) (oe ie oe2 ie2 : String)
    (li : LocationInfo) (fc : FromClause) (inCol : SqlExpr) (prevOut : Option SqlExpr)
    (hkind : node.block.kind = .recurse)
    (hsel : ctx.query_path_to_selectable node.query_path = some s)
    (hedge : _get_join_condition node node ctx =
      .ok (.binary (.eq (.col t1 oe) (.col t2 ie)), ctx))
    (hli : ctx.query_path_to_location_info node.query_path = some li)
    (hfrom : ctx.query_path_to_from_clause node.query_path = some fc)
    (hrec : ctx.query_path_to_recursion_columns node.query_path = some (inCol, prevOut))
    (hnames : (if node.block.direction == INBOUND_EDGE_DIRECTION then (ie, oe)
      else (oe, ie)) = (oe2, ie2))
    (hsupp : cte_hasattr ctx.compiler_metadata.db_backend.recursion_combinator = true) :
    ∃ ctx' out, _create_recursive_clause node ctx (some lc) (some octe) =
        .ok (some out, ctx') ∧
      ctx'.selectable_defs (ctx.fresh + 1) = some (.cte
        { columns :=
            [ .label (.col s oe) oe2,
              .label (.col s oe) ie2,
              .label (.litCol "0") DEPTH_INTERNAL_NAME,
              .label (.concat (.castString (.col s oe)) (.lit (.vstr ",")))
                PATH_INTERNAL_NAME ]
          distinct := true
          from_clause := .join (.base s) (.base octe)
            (.eq (.col s oe) (.col octe lc.name)) false
          where_clauses := [] } true) := by
  obtain ⟨ctx', hok, hcte, _, _, _⟩ := createRecursive_ok node ctx lc octe s t1 t2 oe ie
    oe2 ie2 li fc inCol prevOut hkind hsel hedge hli hfrom hrec hnames hsupp
  exact ⟨ctx', _, hok, hcte⟩

/-- C7 witness: the concrete inbound `Animal_ParentOf` recursion emits the
anchor term with the swapped edge labels over the concrete link column. -/
theorem claim_C7_witness :
    ∃ ctx' out, _create_recursive_clause recNodeFix recCtx
        (some (.col 0 "animal_id")) (some 2) = .ok (some out, ctx') ∧
      ctx'.selectable_defs 7 = some (.cte
        { columns :=
            [ .label (.col 1 "animal_id") "parentof_id",
              .label (.col 1 "animal_id") "animal_id",
              .label (.litCol "0") DEPTH_INTERNAL_NAME,
              .label (.concat (.castString (.col 1 "animal_id")) (.lit (.vstr ",")))
                PATH_INTERNAL_NAME ]
          distinct := true
          from_clause := .join (.base 1) (.base 2)
            (.eq (.col 1 "animal_id") (.col 2 "animal_id")) false
          where_clauses := [] } true) :=
  claim_C7 recNodeFix recCtx (.col 0 "animal_id") 2 1 1 1 "animal_id" "parentof_id"
    "parentof_id" "animal_id" ⟨"Animal", 0⟩ (.base 1) (.col 0 "animal_id") none
    rfl rfl rfl rfl rfl rfl rfl rfl

/-- C6: when the backend's recursion combinator is not an operation the
recursive CTE supports, `_create_recursive_clause` fails with the
compile-time `AssertionError` naming the operation, before any combined
query is produced; when it is supported, the anchor CTE and the recursive
term are combined with exactly the backend's named combinator. -/
theorem claim_C6 (node : SqlNode) (ctx : CompilationContext)
    (lc : SqlExpr) (octe : Nat) (s t1 t2 : Nat) (oe ie oe2 ie2 : String)
    (li : LocationInfo) (fc : FromClause) (inCol : SqlExpr) (prevOut : Option SqlExpr)
    (hkind : node.block.kind = .recurse)
    (hsel : ctx.query_path_to_selectable node.query_path = some s)
    (hedge : _get_join_condition node node ctx =
      .ok (.binary (.eq (.col t1 oe) (.col t2 ie)), ctx))
    (hli : ctx.query_path_to_location_info node.query_path = some li)
    (hfrom : ctx.query_path_to_from_clause node.query_path = some fc)
    (hrec : ctx.query_path_to_recursion_columns node.query_path = some (inCol, prevOut))
    (hnames : (if node.block.direction == INBOUND_EDGE_DIRECTION then (ie, oe)
      else (oe, ie)) = (oe2, ie2)) :
    (cte_hasattr ctx.compiler_metadata.db_backend.recursion_combinator = false →
      _create_recursive_clause node ctx (some lc) (some octe) =
        .error (.assertionError
          ("Cannot combine anchor and recursive clauses with operation \"" ++
            ctx.compiler_metadata.db_backend.recursion_combinator ++ "\""))) ∧
    (cte_hasattr ctx.compiler_metadata.db_backend.recursion_combinator = true →
      ∃ ctx' out, _create_recursive_clause node ctx (some lc) (some octe) =
          .ok (some out, ctx') ∧
        ctx'.selectable_defs (ctx.fresh + 2) = some
          (.compound ctx.compiler_metadata.db_backend.recursion_combinator (ctx.fresh + 1)
            (recursiveTermQuery ctx.fresh (ctx.fresh + 1) oe2 ie2 node.block.depth))) := by
  constructor
  · intro hsupp
    unfold _create_recursive_clause _get_node_selectable _get_schema_type
      _get_block_direction ctxGet
    rw [hkind]
    simp only [hsel, hedge, hli, bind, Except.bind, pure, Except.pure, reduceIte,
      SqlExpr.leftColName?, SqlExpr.rightColName?]
    simp only [CompilationContext.alloc, updMap]
    simp only [or_true, true_or, if_true, reduceIte, hsupp, Bool.not_false,
      if_true, hfrom, hrec, hnames, bind, Except.bind, pure, Except.pure, updMap]
  · intro hsupp
    obtain ⟨ctx', hok, _, hcomp, _, _⟩ := createRecursive_ok node ctx lc octe s t1 t2 oe ie
      oe2 ie2 li fc inCol prevOut hkind hsel hedge hli hfrom hrec hnames hsupp
    exact ⟨ctx', _, hok, hcomp⟩

/-- C6 witness: the `intersect` combinator — a set operation a SQLAlchemy
CTE does not expose — fails with the exact compile-time assertion message;
the `union_all` backend combines the anchor and recursive terms with
`union_all`; and the `join` combinator — a CTE attribute that is not a set
operation — passes the `hasattr` check, so compilation proceeds without
any error and combines the terms with `join`. -/
theorem claim_C6_witness :
    (_create_recursive_clause recNodeFix recCtxBad (some (.col 0 "animal_id")) (some 2) =
      .error (.assertionError
        ("Cannot combine anchor and recursive clauses with operation \"intersect\""))) ∧
    (∃ ctx' out, _create_recursive_clause recNodeFix recCtx
        (some (.col 0 "animal_id")) (some 2) = .ok (some out, ctx') ∧
      ctx'.selectable_defs 8 = some (.compound "union_all" 7
        (recursiveTermQuery 6 7 "parentof_id" "animal_id" 3))) ∧
    (∃ ctx' out, _create_recursive_clause recNodeFix recCtxJoin
        (some (.col 0 "animal_id")) (some 2) = .ok (some out, ctx') ∧
      ctx'.selectable_defs 8 = some (.compound "join" 7
        (recursiveTermQuery 6 7 "parentof_id" "animal_id" 3))) := by
  refine ⟨?_, ?_, ?_⟩
  · exact (claim_C6 recNodeFix recCtxBad (.col 0 "animal_id") 2 1 1 1 "animal_id"
      "parentof_id" "parentof_id" "animal_id" ⟨"Animal", 0⟩ (.base 1)
      (.col 0 "animal_id") none rfl rfl rfl rfl rfl rfl rfl).1 rfl
  · exact (claim_C6 recNodeFix recCtx (.col 0 "animal_id") 2 1 1 1 "animal_id"
      "parentof_id" "parentof_id" "animal_id" ⟨"Animal", 0⟩ (.base 1)
      (.col 0 "animal_id") none rfl rfl rfl rfl rfl rfl rfl).2 rfl
  · exact (claim_C6 recNodeFix recCtxJoin (.col 0 "animal_id") 2 1 1 1 "animal_id"
      "parentof_id" "parentof_id" "animal_id" ⟨"Animal", 0⟩ (.base 1)
      (.col 0 "animal_id") none rfl rfl rfl rfl rfl rfl rfl).2 rfl

/-- C1 (amended): the recursive term of the emitted recursive CTE is
filtered by the conjunction of (a) the prior depth being strictly below
the node's depth bound and (b) the stringified newly reached value not
being a SUBSTRING of the accumulated path column (SQL `contains`), not by
token membership as the claim states; substring containment is strictly
stronger than token membership, so a traversal still never revisits a
path-token already in its path, regardless of the depth bound. -/
theorem claim_C1 (node : SqlNode) (ctx : CompilationContext)
    (lc : SqlExpr) (octe : Nat) (s t1 t2 : Nat) (oe ie oe2 ie2 : String)
    (li : LocationInfo) (fc : FromClause) (inCol : SqlExpr) (prevOut : Option SqlExpr)
    (hkind : node.block.kind = .recurse)
    (hsel : ctx.query_path_to_selectable node.query_path = some s)
    (hedge : _get_join_condition node node ctx =
      .ok (.binary (.eq (.col t1 oe) (.col t2 ie)), ctx))
    (hli : ctx.query_path_to_location_info node.query_path = some li)
    (hfrom : ctx.query_path_to_from_clause node.query_path = some fc)
    (hrec : ctx.query_path_to_recursion_columns node.query_path = some (inCol, prevOut))
    (hnames : (if node.block.direction == INBOUND_EDGE_DIRECTION then (ie, oe)
      else (oe, ie)) = (oe2, ie2))
    (hsupp : cte_hasattr ctx.compiler_metadata.db_backend.recursion_combinator = true) :
    ∃ ctx' out, _create_recursive_clause node ctx (some lc) (some octe) =
        .ok (some out, ctx') ∧
      ctx'.selectable_defs (ctx.fresh + 2) = some
        (.compound ctx.compiler_metadata.db_backend.recursion_combinator (ctx.fresh + 1)
          (recursiveTermQuery ctx.fresh (ctx.fresh + 1) oe2 ie2 node.block.depth)) ∧
      (recursiveTermQuery ctx.fresh (ctx.fresh + 1) oe2 ie2 node.block.depth).where_clauses =
        [.andN
          [ .lt (.col (ctx.fresh + 1) DEPTH_INTERNAL_NAME) (.lit (.vint node.block.depth)),
            .eq (.caseWhen
                  (.contains (.col (ctx.fresh + 1) PATH_INTERNAL_NAME)
                    (.castString (.col ctx.fresh oe2)))
                  (.lit (.vint 1)) (.lit (.vint 0)))
              (.lit (.vint 0)) ]] ∧
      (∀ env d p v,
        env (ctx.fresh + 1) DEPTH_INTERNAL_NAME = .vint d →
        env (ctx.fresh + 1) PATH_INTERNAL_NAME = .vstr p →
        env ctx.fresh oe2 = .vint v →
        whereHolds env (recursiveTermQuery ctx.fresh (ctx.fresh + 1) oe2 ie2
            node.block.depth) =
          (decide (d < (node.block.depth : Int)) && !(strContains p (toString v))) ∧
        (isPathToken p (toString v) = true →
          whereHolds env (recursiveTermQuery ctx.fresh (ctx.fresh + 1) oe2 ie2
            node.block.depth) = false)) := by
  obtain ⟨ctx', hok, _, hcomp, _, _⟩ := createRecursive_ok node ctx lc octe s t1 t2 oe ie
    oe2 ie2 li fc inCol prevOut hkind hsel hedge hli hfrom hrec hnames hsupp
  refine ⟨ctx', _, hok, hcomp, rfl, ?_⟩
  intro env d p v hd hp hv
  have heval := recursiveTermWhereEval ctx.fresh (ctx.fresh + 1) oe2 ie2 node.block.depth
    env d p v hd hp hv
  refine ⟨heval, fun htok => ?_⟩
  rw [heval, isPathToken_strContains htok]
  simp

/-- C1 counterexample: the claim says the recursive term is filtered by
`depth < bound` AND the new value not being a TOKEN of the path.  On the
emitted recursive term of a depth-3 recursion, the row with prior depth 0,
path `"12,"` and new value `1` satisfies both of the claim's conjuncts
(`0 < 3`, and `"1"` is not a token of `"12,"`), yet the emitted guard
evaluates to false, because the source compiles a substring containment
check (`path LIKE '%1%'`). -/
theorem claim_C1_counterexample :
    (∃ ctx' out, _create_recursive_clause recNodeFix recCtx
        (some (.col 0 "animal_id")) (some 2) = .ok (some out, ctx') ∧
      ctx'.selectable_defs 8 = some (.compound "union_all" 7
        (recursiveTermQuery 6 7 "parentof_id" "animal_id" 3))) ∧
    ((0 : Int) < 3) ∧
    isPathToken "12," "1" = false ∧
    whereHolds cexRow (recursiveTermQuery 6 7 "parentof_id" "animal_id" 3) = false := by
  refine ⟨?_, by decide, by decide, by decide⟩
  obtain ⟨ctx', out, hok, hcomp, _, _⟩ := claim_C1 recNodeFix recCtx (.col 0 "animal_id")
    2 1 1 1 "animal_id" "parentof_id" "parentof_id" "animal_id" ⟨"Animal", 0⟩ (.base 1)
    (.col 0 "animal_id") none rfl rfl rfl rfl rfl rfl rfl rfl
  exact ⟨ctx', out, hok, hcomp⟩

/-- C1 witness: the amended claim at the concrete inbound recursion — the
guard of the emitted recursive term evaluates, on the row with depth 0,
path `"3,"` and new value `7`, to `0 < 3 && not ("7" substring of "3,")`,
and on any row whose new value is already a token of the path it
evaluates to false. -/
theorem claim_C1_witness :
    ∃ ctx' out, _create_recursive_clause recNodeFix recCtx
        (some (.col 0 "animal_id")) (some 2) = .ok (some out, ctx') ∧
      whereHolds tokenRow (recursiveTermQuery 6 7 "parentof_id" "animal_id" 3) = false := by
  obtain ⟨ctx', out, hok, _, _, hsem⟩ := claim_C1 recNodeFix recCtx (.col 0 "animal_id")
    2 1 1 1 "animal_id" "parentof_id" "parentof_id" "animal_id" ⟨"Animal", 0⟩ (.base 1)
    (.col 0 "animal_id") none rfl rfl rfl rfl rfl rfl rfl rfl
  refine ⟨ctx', out, hok, ?_⟩
  exact (hsem tokenRow 0 "7," 7 rfl rfl rfl).2 (by decide)

/-- Flattening a child onto a node changes only the node's recursions
list: query path and block are untouched. -/
theorem flattenNode_preserves (node child_node : SqlNode) (ctx : CompilationContext) :
    (_flatten_node node child_node ctx).1.block = node.block ∧
    (_flatten_node node child_node ctx).1.query_path = node.query_path ∧
    (_flatten_node node child_node ctx).1.recursions =
      node.recursions ++ child_node.recursions := by
  cases node
  exact ⟨rfl, rfl, rfl⟩

/-- The join loop preserves the node's block and query path, and extends
its recursions list with exactly the recursions of the processed children,
in order. -/
theorem joinChildrenLoop_preserves (children : List SqlNode) :
    ∀ node ctx node1 ctx2, joinChildrenLoop node children ctx = .ok (node1, ctx2) →
      node1.block = node.block ∧ node1.query_path = node.query_path ∧
      node1.recursions = node.recursions ++ (children.map SqlNode.recursions).flatten := by
  induction children with
  | nil =>
      intro node ctx node1 ctx2 h
      simp only [joinChildrenLoop] at h
      cases h
      exact ⟨rfl, rfl, by simp⟩
  | cons child_node rest ih =>
      intro node ctx node1 ctx2 h
      simp only [joinChildrenLoop, bind, Except.bind] at h
      cases hjc : _get_join_condition (_flatten_node node child_node ctx).1 child_node
          (_flatten_node node child_node ctx).2 with
      | error err => rw [hjc] at h; cases h
      | ok pr =>
          rw [hjc] at h
          dsimp only at h
          cases hjn : _join_nodes (_flatten_node node child_node ctx).1 child_node pr.1
              pr.2 with
          | error err => rw [hjn] at h; cases h
          | ok ctxJ =>
              rw [hjn] at h
              dsimp only at h
              obtain ⟨hb, hq, hr⟩ := ih (_flatten_node node child_node ctx).1 ctxJ node1
                ctx2 h
              obtain ⟨hb0, hq0, hr0⟩ := flattenNode_preserves node child_node ctx
              refine ⟨hb.trans hb0, hq.trans hq0, ?_⟩
              rw [hr, hr0]
              simp

/-- Flattening the non-recursive subtree preserves a node's block and
query path. -/
theorem flatten_preserves_block (node : SqlNode) (ctx : CompilationContext)
    (node1 : SqlNode) (visited : List SqlNode) (ctx2 : CompilationContext)
    (h : _flatten_and_join_nonrecursive_nodes node ctx = .ok ((node1, visited), ctx2)) :
    node1.block = node.block ∧ node1.query_path = node.query_path := by
  cases node with
  | mk qp blk ch rs =>
    simp only [_flatten_and_join_nonrecursive_nodes] at h
    cases hfc : flattenChildrenLoop ch ctx with
    | error err => rw [hfc] at h; cases h
    | ok fl =>
        rw [hfc] at h
        obtain ⟨⟨children1, visited1⟩, ctxA⟩ := fl
        dsimp only at h
        cases hct : _create_and_reference_table (SqlNode.mk qp blk ch rs) ctxA with
        | error err => rw [hct] at h; cases h
        | ok tb =>
            rw [hct] at h
            dsimp only at h
            cases hcl : _create_links_for_recursions (SqlNode.mk qp blk ch rs) tb.2 with
            | error err => rw [hcl] at h; cases h
            | ok ctxB =>
                rw [hcl] at h
                dsimp only at h
                cases hjl : joinChildrenLoop (SqlNode.mk qp blk ch rs) children1 ctxB with
                | error err => rw [hjl] at h; cases h
                | ok pr =>
                    rw [hjl] at h
                    obtain ⟨nodeJ, ctxJ⟩ := pr
                    obtain ⟨hb, hq, _⟩ := joinChildrenLoop_preserves children1
                      (SqlNode.mk qp blk ch rs) ctxB nodeJ ctxJ (hjl.trans rfl)
                    cases h
                    exact ⟨hb, hq⟩

/-- The columns produced by the output-field loop are named exactly by the
requested output aliases, in order. -/
theorem outputFieldsLoop_names (entries : List (String × OutputEntry)) :
    ∀ ctx cols ents ctx2, outputFieldsLoop ctx entries = .ok (cols, ents, ctx2) →
      cols.map SqlExpr.name = entries.map Prod.fst := by
  induction entries with
  | nil =>
      intro ctx cols ents ctx2 h
      simp only [outputFieldsLoop] at h
      cases h
      rfl
  | cons e rest ih =>
      intro ctx cols ents ctx2 h
      obtain ⟨field_alias, field, field_type, is_renamed⟩ := e
      simp only [outputFieldsLoop, bind, Except.bind, pure, Except.pure] at h
      cases hsel : ctxGet ctx.query_path_to_selectable field.location.query_path with
      | error err => rw [hsel] at h; cases h
      | ok sel =>
          rw [hsel] at h
          cases is_renamed with
          | true =>
              simp only [if_true, reduceIte] at h
              cases hrest : outputFieldsLoop ctx rest with
              | error err => rw [hrest] at h; cases h
              | ok triple =>
                  rw [hrest] at h
                  cases h
                  simpa [SqlExpr.name] using ih ctx triple.1 triple.2.1 triple.2.2
                    (by rw [hrest])
          | false =>
              simp only [Bool.false_eq_true, if_false, reduceIte] at h
              cases hrest : outputFieldsLoop
                  (updRenames ctx field.location.query_path field.location.field field_alias)
                  rest with
              | error err => rw [hrest] at h; cases h
              | ok triple =>
                  rw [hrest] at h
                  cases h
                  simpa [SqlExpr.name] using ih _ triple.1 triple.2.1 triple.2.2
                    (by rw [hrest])

/-- For the final query, `_get_output_columns` produces exactly one column
per requested output alias and no tag columns. -/
theorem getOutputColumns_final_names (node : SqlNode) (ctx : CompilationContext)
    (cols : List SqlExpr) (ctx2 : CompilationContext)
    (h : _get_output_columns node true ctx = .ok (cols, ctx2)) :
    cols.map SqlExpr.name =
      ((ctx.query_path_to_output_fields node.query_path).getD []).map Prod.fst := by
  simp only [_get_output_columns, bind, Except.bind, pure, Except.pure,
    Bool.not_true, Bool.false_eq_true, if_false, reduceIte] at h
  cases hloop : outputFieldsLoop ctx
      ((ctx.query_path_to_output_fields node.query_path).getD []) with
  | error err => rw [hloop] at h; cases h
  | ok triple =>
      rw [hloop] at h
      cases h
      exact outputFieldsLoop_names _ _ _ _ _ (by rw [hloop])

/-- Any successful final `_create_query` emits no WHERE clauses. -/
theorem createQuery_final_where (node : SqlNode) (ctx : CompilationContext)
    (q : SelectQuery) (ctx2 : CompilationContext)
    (h : _create_query node true ctx = .ok (q, ctx2)) : q.where_clauses = [] := by
  simp only [_create_query, bind, Except.bind, pure, Except.pure,
    Bool.not_true, Bool.false_eq_true, if_false, reduceIte] at h
  cases hoc : _get_output_columns node true ctx with
  | error err => rw [hoc] at h; cases h
  | ok pair =>
      rw [hoc] at h
      dsimp only at h
      cases hrc : pair.2.query_path_to_recursion_columns node.query_path with
      | some pr =>
          rw [hrc] at h
          cases hfc : ctxGet pair.2.query_path_to_from_clause node.query_path with
          | error err => rw [hfc] at h; cases h
          | ok fc =>
              rw [hfc] at h
              obtain ⟨pr1, pr2⟩ := pr
              cases h
              rfl
      | none =>
          rw [hrc] at h
          cases hfc : ctxGet pair.2.query_path_to_from_clause node.query_path with
          | error err => rw [hfc] at h; cases h
          | ok fc =>
              rw [hfc] at h
              cases h
              rfl
/-- The output-field loop never touches the recursion-columns map. -/
theorem outputFieldsLoop_recCols (entries : List (String × OutputEntry)) :
    ∀ ctx cols ents ctx2, outputFieldsLoop ctx entries = .ok (cols, ents, ctx2) →
      ctx2.query_path_to_recursion_columns = ctx.query_path_to_recursion_columns := by
  induction entries with
  | nil =>
      intro ctx cols ents ctx2 h
      simp only [outputFieldsLoop] at h
      cases h
      rfl
  | cons e rest ih =>
      intro ctx cols ents ctx2 h
      obtain ⟨field_alias, field, field_type, is_renamed⟩ := e
      simp only [outputFieldsLoop, bind, Except.bind, pure, Except.pure] at h
      cases hsel : ctxGet ctx.query_path_to_selectable field.location.query_path with
      | error err => rw [hsel] at h; cases h
      | ok sel =>
          rw [hsel] at h
          cases is_renamed with
          | true =>
              simp only [if_true, reduceIte] at h
              cases hrest : outputFieldsLoop ctx rest with
              | error err => rw [hrest] at h; cases h
              | ok triple =>
                  rw [hrest] at h
                  cases h
                  exact ih ctx triple.1 triple.2.1 triple.2.2 (by rw [hrest])
          | false =>
              simp only [Bool.false_eq_true, if_false, reduceIte] at h
              cases hrest : outputFieldsLoop
                  (updRenames ctx field.location.query_path field.location.field field_alias)
                  rest with
              | error err => rw [hrest] at h; cases h
              | ok triple =>
                  rw [hrest] at h
                  cases h
                  exact ih (updRenames ctx field.location.query_path field.location.field
                    field_alias) triple.1 triple.2.1 triple.2.2 (hrest.trans rfl)

/-- `_get_output_columns` leaves the recursion-columns map unchanged. -/
theorem getOutputColumns_final_recCols (node : SqlNode) (ctx : CompilationContext)
    (cols : List SqlExpr) (ctx2 : CompilationContext)
    (h : _get_output_columns node true ctx = .ok (cols, ctx2)) :
    ctx2.query_path_to_recursion_columns = ctx.query_path_to_recursion_columns := by
  simp only [_get_output_columns, bind, Except.bind, pure, Except.pure,
    Bool.not_true, Bool.false_eq_true, if_false, reduceIte] at h
  cases hloop : outputFieldsLoop ctx
      ((ctx.query_path_to_output_fields node.query_path).getD []) with
  | error err => rw [hloop] at h; cases h
  | ok triple =>
      rw [hloop] at h
      cases h
      exact outputFieldsLoop_recCols ((ctx.query_path_to_output_fields node.query_path).getD [])
        ctx triple.1 triple.2.1 triple.2.2 (hloop.trans rfl)

/-- C5: (i) the final (root) query carries no WHERE clauses, is not
DISTINCT-decorated, and its column list is exactly one column per
user-requested output alias, named by those aliases (no tag columns and no
recursion link columns are projected when the scope's path closes no
recursion); (ii) every run of `_query_tree_to_query` factors through the
non-final query of the flattened node being wrapped as a CTE, after which
a root node returns its final query unwrapped (with empty WHERE) while a
non-root node returns only the outbound recursion link column. -/
theorem claim_C5 :
    (∀ node ctx q ctx2,
      ctx.query_path_to_recursion_columns node.query_path = none →
      _create_query node true ctx = .ok (q, ctx2) →
      q.where_clauses = [] ∧ q.distinct = false ∧
      q.columns.map SqlExpr.name =
        ((ctx.query_path_to_output_fields node.query_path).getD []).map Prod.fst) ∧
    (∀ fuel node ctx rlc oc r ctx2,
      _query_tree_to_query (fuel + 1) node ctx rlc oc = .ok (r, ctx2) →
      ∃ node1 visited ctxA recCol ctxB q ctxC,
        _flatten_and_join_nonrecursive_nodes node ctx = .ok ((node1, visited), ctxA) ∧
        _create_recursive_clause node1 ctxA rlc oc = .ok (recCol, ctxB) ∧
        _create_query node1 false ctxB = .ok (q, ctxC) ∧
        (node.block.kind = .queryRoot →
          ∃ fq, r = .finalQuery fq ∧ fq.where_clauses = []) ∧
        (node.block.kind ≠ .queryRoot → r = .outColumn recCol)) := by
  constructor
  · intro node ctx q ctx2 hrec h
    have hwhere := createQuery_final_where node ctx q ctx2 h
    simp only [_create_query, bind, Except.bind, pure, Except.pure,
      Bool.not_true, Bool.false_eq_true, if_false, reduceIte] at h
    cases hoc : _get_output_columns node true ctx with
    | error err => rw [hoc] at h; cases h
    | ok pair =>
        rw [hoc] at h
        dsimp only at h
        have hrc2 : pair.2.query_path_to_recursion_columns node.query_path = none := by
          rw [getOutputColumns_final_recCols node ctx pair.1 pair.2 (by rw [hoc])]
          exact hrec
        rw [hrc2] at h
        cases hfc : ctxGet pair.2.query_path_to_from_clause node.query_path with
        | error err => rw [hfc] at h; cases h
        | ok fc =>
            rw [hfc] at h
            cases h
            refine ⟨rfl, rfl, ?_⟩
            exact getOutputColumns_final_names node ctx pair.1 pair.2 (by rw [hoc])
  · intro fuel node ctx rlc oc r ctx2 h
    simp only [_query_tree_to_query] at h
    cases hfl : _flatten_and_join_nonrecursive_nodes node ctx with
    | error err => rw [hfl] at h; cases h
    | ok fl =>
        rw [hfl] at h
        obtain ⟨⟨node1, visited⟩, ctxA⟩ := fl
        dsimp only at h
        cases hcr : _create_recursive_clause node1 ctxA rlc oc with
        | error err => rw [hcr] at h; cases h
        | ok cr =>
            rw [hcr] at h
            obtain ⟨recCol, ctxB⟩ := cr
            dsimp only at h
            cases hcq : _create_query node1 false ctxB with
            | error err => rw [hcq] at h; cases h
            | ok cq =>
                rw [hcq] at h
                obtain ⟨q, ctxC⟩ := cq
                dsimp only at h
                cases halloc : ctxC.alloc (.cte q false) with
                | mk cte ctxD =>
                  rw [halloc] at h
                  dsimp only at h
                  cases hrl : recursionsLoop fuel node1 cte node1.recursions
                      (_update_context_paths node1 visited cte ctxD) with
                  | error err => rw [hrl] at h; cases h
                  | ok ctxE =>
                    rw [hrl] at h
                    dsimp only at h
                    refine ⟨node1, visited, ctxA, recCol, ctxB, q, ctxC, rfl, hcr, hcq,
                      ?_, ?_⟩
                    · intro hroot
                      have hroot1 : node1.block.kind = BlockKind.queryRoot := by
                        rw [(flatten_preserves_block node ctx node1 visited ctxA hfl).1]
                        exact hroot
                      rw [if_pos hroot1] at h
                      cases hfq : _create_query node1 true ctxE with
                      | error err => rw [hfq] at h; cases h
                      | ok p =>
                          obtain ⟨fq0, ctxF⟩ := p
                          rw [hfq] at h
                          cases h
                          exact ⟨fq0, rfl, createQuery_final_where node1 ctxE fq0 _ hfq⟩
                    · intro hroot
                      have hroot1 : node1.block.kind ≠ BlockKind.queryRoot := by
                        rw [(flatten_preserves_block node ctx node1 visited ctxA hfl).1]
                        exact hroot
                      rw [if_neg hroot1] at h
                      cases h
                      rfl
/-- C5 witness: on the root-only fixture, the final query has no WHERE, no
DISTINCT, and exactly the one requested output column named `name_alias`;
and the one-scope pipeline returns an unwrapped final query with empty
WHERE clauses. -/
theorem claim_C5_witness :
    (∃ q ctx2, _create_query soloRoot true soloQueryCtx = .ok (q, ctx2) ∧
      q.where_clauses = [] ∧ q.distinct = false ∧
      q.columns.map SqlExpr.name = ["name_alias"]) ∧
    (∃ r ctx2 fq, _query_tree_to_query 1 soloRoot soloCtx none none = .ok (r, ctx2) ∧
      r = .finalQuery fq ∧ fq.where_clauses = []) := by
  constructor
  · cases h : _create_query soloRoot true soloQueryCtx with
    | error err =>
        have hok : exceptIsOk (_create_query soloRoot true soloQueryCtx) = true := by rfl
        rw [h] at hok
        exact absurd hok (by simp [exceptIsOk])
    | ok p =>
        obtain ⟨hw, hd, hn⟩ := claim_C5.1 soloRoot soloQueryCtx p.1 p.2 rfl (h.trans rfl)
        exact ⟨p.1, p.2, rfl, hw, hd, hn.trans (by rfl)⟩
  · cases h : _query_tree_to_query 1 soloRoot soloCtx none none with
    | error err =>
        have hok : exceptIsOk (_query_tree_to_query 1 soloRoot soloCtx none none) = true := by
          rfl
        rw [h] at hok
        exact absurd hok (by simp [exceptIsOk])
    | ok p =>
        obtain ⟨node1, visited, ctxA, recCol, ctxB, q, ctxC, h1, h2, h3, hroot, hnroot⟩ :=
          claim_C5.2 0 soloRoot soloCtx none none p.1 p.2 (h.trans rfl)
        obtain ⟨fq, hfq, hw⟩ := hroot rfl
        exact ⟨p.1, p.2, fq, rfl, hfq, hw⟩

/-- Creating and referencing a node's table does not touch the
recursion-columns map. -/
theorem createAndRefTable_recCols (node : SqlNode) (ctx : CompilationContext)
    (t : Nat) (ctx2 : CompilationContext)
    (h : _create_and_reference_table node ctx = .ok (t, ctx2)) :
    ctx2.query_path_to_recursion_columns = ctx.query_path_to_recursion_columns := by
  simp only [_create_and_reference_table, _get_schema_type, ctxGet, bind, Except.bind,
    pure, Except.pure] at h
  cases hli : ctx.query_path_to_location_info node.query_path with
  | none => rw [hli] at h; cases h
  | some li =>
      rw [hli] at h
      dsimp only [CompilationContext.alloc] at h
      cases h
      rfl

/-- Junction-table resolution does not touch the recursion-columns map. -/
theorem m2m_recCols (outer_node inner_node : SqlNode) (ctx : CompilationContext)
    (res : Option (SqlExpr × Nat × SqlExpr)) (ctx2 : CompilationContext)
    (h : _try_get_many_to_many_join_condition outer_node inner_node ctx = .ok (res, ctx2)) :
    ctx2.query_path_to_recursion_columns = ctx.query_path_to_recursion_columns := by
  simp only [_try_get_many_to_many_join_condition, _get_node_selectable, _get_schema_type,
    _get_block_direction, ctxGet, bind, Except.bind, pure, Except.pure] at h
  cases hos : ctx.query_path_to_selectable outer_node.query_path with
  | none => rw [hos] at h; cases h
  | some oSel =>
    rw [hos] at h
    cases his : ctx.query_path_to_selectable inner_node.query_path with
    | none => rw [his] at h; cases h
    | some iSel =>
      rw [his] at h
      cases hti : ctx.query_path_to_location_info inner_node.query_path with
      | none => rw [hti] at h; cases h
      | some ti =>
        rw [hti] at h
        dsimp only [CompilationContext.alloc] at h
        repeat' split at h
        all_goals first
          | (cases h; rfl)
          | cases h

/-- Join resolution does not touch the recursion-columns map. -/
theorem getJoin_recCols (outer_node inner_node : SqlNode) (ctx : CompilationContext)
    (jr : JoinResult) (ctx2 : CompilationContext)
    (h : _get_join_condition outer_node inner_node ctx = .ok (jr, ctx2)) :
    ctx2.query_path_to_recursion_columns = ctx.query_path_to_recursion_columns := by
  simp only [_get_join_condition, _get_node_selectable, ctxGet, bind, Except.bind,
    pure, Except.pure] at h
  cases hos : ctx.query_path_to_selectable outer_node.query_path with
  | none => rw [hos] at h; cases h
  | some oSel =>
    rw [hos] at h
    cases his : ctx.query_path_to_selectable inner_node.query_path with
    | none => rw [his] at h; cases h
    | some iSel =>
      rw [his] at h
      dsimp only at h
      cases hm2m : _try_get_many_to_many_join_condition outer_node inner_node ctx with
      | error err => rw [hm2m] at h; cases h
      | ok pr =>
        rw [hm2m] at h
        obtain ⟨res, ctxM⟩ := pr
        have hframe := m2m_recCols outer_node inner_node ctx res ctxM (hm2m.trans rfl)
        dsimp only at h
        cases res with
        | some t =>
            obtain ⟨a, b, c⟩ := t
            cases h
            exact hframe
        | none =>
            dsimp only at h
            repeat' (first | split at h | dsimp only at h)
            all_goals first
              | (cases h; exact hframe)
              | cases h

/-- Flattening a child's references does not touch the recursion-columns
map. -/
theorem flattenNode_recCols (node child_node : SqlNode) (ctx : CompilationContext) :
    (_flatten_node node child_node ctx).2.query_path_to_recursion_columns =
      ctx.query_path_to_recursion_columns := rfl

/-- Joining two nodes does not touch the recursion-columns map. -/
theorem joinNodes_recCols (parent_node child_node : SqlNode) (onclause : JoinResult)
    (ctx : CompilationContext) (ctx2 : CompilationContext)
    (h : _join_nodes parent_node child_node onclause ctx = .ok ctx2) :
    ctx2.query_path_to_recursion_columns = ctx.query_path_to_recursion_columns := by
  simp only [_join_nodes, ctxGet, bind, Except.bind, pure, Except.pure] at h
  cases hli : ctx.query_path_to_location_info child_node.query_path with
  | none => rw [hli] at h; cases h
  | some li =>
    rw [hli] at h
    cases hpf : ctx.query_path_to_from_clause parent_node.query_path with
    | none => rw [hpf] at h; cases h
    | some pfc =>
      rw [hpf] at h
      cases hcf : ctx.query_path_to_from_clause child_node.query_path with
      | none => rw [hcf] at h; cases h
      | some cfc =>
        rw [hcf] at h
        dsimp only at h
        split at h <;> (try split at h) <;> (cases h; rfl)

/-- The join loop over children does not touch the recursion-columns map. -/
theorem joinChildrenLoop_recCols (children : List SqlNode) :
    ∀ node ctx node1 ctx2, joinChildrenLoop node children ctx = .ok (node1, ctx2) →
      ctx2.query_path_to_recursion_columns = ctx.query_path_to_recursion_columns := by
  induction children with
  | nil =>
      intro node ctx node1 ctx2 h
      simp only [joinChildrenLoop] at h
      cases h
      rfl
  | cons child_node rest ih =>
      intro node ctx node1 ctx2 h
      simp only [joinChildrenLoop, bind, Except.bind] at h
      cases hjc : _get_join_condition (_flatten_node node child_node ctx).1 child_node
          (_flatten_node node child_node ctx).2 with
      | error err => rw [hjc] at h; cases h
      | ok pr =>
          rw [hjc] at h
          dsimp only at h
          cases hjn : _join_nodes (_flatten_node node child_node ctx).1 child_node pr.1
              pr.2 with
          | error err => rw [hjn] at h; cases h
          | ok ctxJ =>
              rw [hjn] at h
              dsimp only at h
              calc ctx2.query_path_to_recursion_columns
                  = ctxJ.query_path_to_recursion_columns :=
                    ih (_flatten_node node child_node ctx).1 ctxJ node1 ctx2 h
                _ = pr.2.query_path_to_recursion_columns :=
                    joinNodes_recCols _ child_node pr.1 pr.2 ctxJ (hjn.trans rfl)
                _ = (_flatten_node node child_node ctx).2.query_path_to_recursion_columns :=
                    getJoin_recCols _ child_node (_flatten_node node child_node ctx).2 pr.1
                      pr.2 (hjc.trans rfl)
                _ = ctx.query_path_to_recursion_columns :=
                    flattenNode_recCols node child_node ctx

/-- Creating one recursion link computes the link column without touching
the recursion-columns map (the registration happens in the loop). -/
theorem createLink_recCols (node recursion_node : SqlNode) (ctx : CompilationContext)
    (c : SqlExpr) (ctx2 : CompilationContext)
    (h : _create_link_for_recursion node recursion_node ctx = .ok (c, ctx2)) :
    ctx2.query_path_to_recursion_columns = ctx.query_path_to_recursion_columns := by
  simp only [_create_link_for_recursion, _get_node_selectable, ctxGet, bind, Except.bind,
    pure, Except.pure] at h
  cases hs : ctx.query_path_to_selectable node.query_path with
  | none => rw [hs] at h; cases h
  | some sel =>
    rw [hs] at h
    dsimp only at h
    cases hct : _create_and_reference_table recursion_node ctx with
    | error err => rw [hct] at h; cases h
    | ok tb =>
      rw [hct] at h
      have hTb := createAndRefTable_recCols recursion_node ctx tb.1 tb.2 (hct.trans rfl)
      dsimp only at h
      cases hjc : _get_join_condition node recursion_node tb.2 with
      | error err => rw [hjc] at h; cases h
      | ok pr =>
        rw [hjc] at h
        have hJc := getJoin_recCols node recursion_node tb.2 pr.1 pr.2 (hjc.trans rfl)
        dsimp only at h
        repeat' split at h
        all_goals first
          | (cases h; exact hJc.trans hTb)
          | cases h

/-- The link-registration loop only writes `(column, none)` pairs, and
registers one for every recursion in the list. -/
theorem linksLoop_spec (recs : List SqlNode) :
    ∀ node ctx ctx2, linksLoop node recs ctx = .ok ctx2 →
      (∀ qp, ctx2.query_path_to_recursion_columns qp =
          ctx.query_path_to_recursion_columns qp ∨
        ∃ c, ctx2.query_path_to_recursion_columns qp = some (c, none)) ∧
      (∀ r ∈ recs, ∃ c,
        ctx2.query_path_to_recursion_columns r.query_path = some (c, none)) := by
  induction recs with
  | nil =>
      intro node ctx ctx2 h
      simp only [linksLoop] at h
      cases h
      exact ⟨fun qp => .inl rfl, by simp⟩
  | cons r rest ih =>
      intro node ctx ctx2 h
      simp only [linksLoop, bind, Except.bind] at h
      cases hcl : _create_link_for_recursion node r ctx with
      | error err => rw [hcl] at h; cases h
      | ok pr =>
          rw [hcl] at h
          have hLc := createLink_recCols node r ctx pr.1 pr.2 (hcl.trans rfl)
          dsimp only at h
          obtain ⟨hframe, hmem⟩ := ih node _ ctx2 h
          constructor
          · intro qp0
            rcases hframe qp0 with heq | hex
            · rw [heq]
              dsimp only [updMap]
              by_cases hq : qp0 = r.query_path
              · exact .inr ⟨pr.1, by rw [if_pos hq]⟩
              · rw [if_neg hq, hLc]
                exact .inl rfl
            · exact .inr hex
          · intro r0 hr0
            rcases List.mem_cons.mp hr0 with rfl | hr0
            · rcases hframe r0.query_path with heq | hex
              · refine ⟨pr.1, ?_⟩
                rw [heq]
                dsimp only [updMap]
                rw [if_pos rfl]
              · exact hex
            · exact hmem r0 hr0

mutual

/-- Post-order flattening hoists into the returned node exactly the
recursions of the whole non-recursive subtree, and registers every one of
them in the recursion-columns map as `(column, none)`; apart from such
registrations the map is untouched. -/
theorem flatten_rec_spec : ∀ (node : SqlNode) (ctx : CompilationContext)
    (node1 : SqlNode) (visited : List SqlNode) (ctx2 : CompilationContext),
    _flatten_and_join_nonrecursive_nodes node ctx = .ok ((node1, visited), ctx2) →
    node1.recursions = subtreeRecursions node ∧
    (∀ qp, ctx2.query_path_to_recursion_columns qp =
        ctx.query_path_to_recursion_columns qp ∨
      ∃ c, ctx2.query_path_to_recursion_columns qp = some (c, none)) ∧
    (∀ r ∈ node1.recursions, ∃ c,
      ctx2.query_path_to_recursion_columns r.query_path = some (c, none))
  | .mk qp blk ch rs, ctx, node1, visited, ctx2 => by
    intro h
    simp only [_flatten_and_join_nonrecursive_nodes] at h
    cases hfc : flattenChildrenLoop ch ctx with
    | error err => rw [hfc] at h; cases h
    | ok fl =>
      rw [hfc] at h
      obtain ⟨⟨children1, visited1⟩, ctxA⟩ := fl
      have hCh := flattenChildren_rec_spec ch ctx children1 visited1 ctxA (hfc.trans rfl)
      dsimp only at h
      cases hct : _create_and_reference_table (SqlNode.mk qp blk ch rs) ctxA with
      | error err => rw [hct] at h; cases h
      | ok tb =>
        rw [hct] at h
        have hTb := createAndRefTable_recCols (SqlNode.mk qp blk ch rs) ctxA tb.1 tb.2
          (hct.trans rfl)
        dsimp only at h
        cases hcl : _create_links_for_recursions (SqlNode.mk qp blk ch rs) tb.2 with
        | error err => rw [hcl] at h; cases h
        | ok ctxB =>
          rw [hcl] at h
          have hLk := linksLoop_spec rs (SqlNode.mk qp blk ch rs) tb.2 ctxB hcl
          dsimp only at h
          cases hjl : joinChildrenLoop (SqlNode.mk qp blk ch rs) children1 ctxB with
          | error err => rw [hjl] at h; cases h
          | ok prJ =>
            rw [hjl] at h
            obtain ⟨nodeJ, ctxJ⟩ := prJ
            have hJp := joinChildrenLoop_preserves children1 (SqlNode.mk qp blk ch rs)
              ctxB nodeJ ctxJ (hjl.trans rfl)
            have hJc := joinChildrenLoop_recCols children1 (SqlNode.mk qp blk ch rs)
              ctxB nodeJ ctxJ (hjl.trans rfl)
            cases h
            refine ⟨?_, ?_, ?_⟩
            · rw [hJp.2.2, hCh.1]
              rfl
            · intro qp0
              rw [congrFun hJc qp0]
              rcases hLk.1 qp0 with heq | hex
              · rw [heq, congrFun hTb qp0]
                exact hCh.2.1 qp0
              · exact .inr hex
            · intro r hr
              rw [congrFun hJc r.query_path]
              rw [hJp.2.2] at hr
              rcases List.mem_append.mp hr with hr | hr
              · exact hLk.2 r hr
              · obtain ⟨c, hc⟩ := hCh.2.2 r hr
                rcases hLk.1 r.query_path with heq | hex
                · exact ⟨c, by rw [heq, congrFun hTb r.query_path]; exact hc⟩
                · exact hex

/-- The child-collapsing loop: the flattened children's recursion lists
concatenate to the subtree recursions of the original children, all
registered as `(column, none)` pairs. -/
theorem flattenChildren_rec_spec : ∀ (children : List SqlNode) (ctx : CompilationContext)
    (children1 visited : List SqlNode) (ctx2 : CompilationContext),
    flattenChildrenLoop children ctx = .ok ((children1, visited), ctx2) →
    (children1.map SqlNode.recursions).flatten = subtreeRecursionsList children ∧
    (∀ qp, ctx2.query_path_to_recursion_columns qp =
        ctx.query_path_to_recursion_columns qp ∨
      ∃ c, ctx2.query_path_to_recursion_columns qp = some (c, none)) ∧
    (∀ r ∈ (children1.map SqlNode.recursions).flatten, ∃ c,
      ctx2.query_path_to_recursion_columns r.query_path = some (c, none))
  | [], ctx, children1, visited, ctx2 => by
      intro h
      simp only [flattenChildrenLoop] at h
      cases h
      exact ⟨rfl, fun qp => .inl rfl, by simp⟩
  | c :: rest, ctx, children1, visited, ctx2 => by
      intro h
      simp only [flattenChildrenLoop] at h
      cases hf : _flatten_and_join_nonrecursive_nodes c ctx with
      | error err => rw [hf] at h; cases h
      | ok fl =>
        rw [hf] at h
        obtain ⟨⟨c1, vis⟩, ctxA⟩ := fl
        have hC := flatten_rec_spec c ctx c1 vis ctxA (hf.trans rfl)
        dsimp only at h
        cases hrest : flattenChildrenLoop rest ctxA with
        | error err => rw [hrest] at h; cases h
        | ok fl2 =>
          rw [hrest] at h
          obtain ⟨⟨rest1, vis2⟩, ctxB⟩ := fl2
          have hR := flattenChildren_rec_spec rest ctxA rest1 vis2 ctxB (hrest.trans rfl)
          cases h
          refine ⟨?_, ?_, ?_⟩
          · simp only [List.map_cons, List.flatten_cons, hC.1, hR.1, subtreeRecursionsList]
          · intro qp0
            rcases hR.2.1 qp0 with heq | hex
            · rw [heq]
              exact hC.2.1 qp0
            · exact .inr hex
          · intro r hr
            simp only [List.map_cons, List.flatten_cons] at hr
            rcases List.mem_append.mp hr with hr | hr
            · obtain ⟨cc, hcc⟩ := hC.2.2 r hr
              rcases hR.2.1 r.query_path with heq | hex
              · exact ⟨cc, by rw [heq]; exact hcc⟩
              · exact hex
            · exact hR.2.2 r hr

end

/-- A successful recursive-clause creation always completes the node's
recursion-column pair with the freshly produced outbound column. -/
theorem createRecursive_fills_out (node : SqlNode) (ctx : CompilationContext)
    (lc : Option SqlExpr) (oc : Option Nat) (out : SqlExpr) (ctx2 : CompilationContext)
    (h : _create_recursive_clause node ctx lc oc = .ok (some out, ctx2)) :
    ∃ c, ctx2.query_path_to_recursion_columns node.query_path = some (c, some out) := by
  simp only [_create_recursive_clause, _get_node_selectable, _get_schema_type,
    _get_block_direction, ctxGet, bind, Except.bind, pure, Except.pure,
    CompilationContext.alloc] at h
  repeat' (first | split at h | dsimp only at h)
  all_goals (
    cases h
    try exact ⟨_, by dsimp only [updMap]; rw [if_pos rfl]⟩)

/-- C10: after `_flatten_and_join_nonrecursive_nodes` returns, the node's
recursions list is exactly the recursions of its whole flattened
non-recursive subtree — hoisted from all depths, not only direct children
— and every one of them is registered in the context as an
`(inbound column, None)` pair before the node is materialized; the
outbound half of the pair is filled in (only) by a successful
`_create_recursive_clause`. -/
theorem claim_C10 :
    (∀ node ctx node1 visited ctx2,
      _flatten_and_join_nonrecursive_nodes node ctx = .ok ((node1, visited), ctx2) →
      node1.recursions = subtreeRecursions node ∧
      (∀ r ∈ node1.recursions, ∃ c,
        ctx2.query_path_to_recursion_columns r.query_path = some (c, none))) ∧
    (∀ node ctx lc oc out ctx2,
      _create_recursive_clause node ctx lc oc = .ok (some out, ctx2) →
      ∃ c, ctx2.query_path_to_recursion_columns node.query_path = some (c, some out)) := by
  constructor
  · intro node ctx node1 visited ctx2 h
    obtain ⟨h1, _, h3⟩ := flatten_rec_spec node ctx node1 visited ctx2 h
    exact ⟨h1, h3⟩
  · exact createRecursive_fills_out

/-- C10 witness: on the two-level fixture, the recursion hanging off the
child is hoisted into the root's recursions, equals the subtree gather,
and is registered as `(column, None)`; completing the recursive clause on
the single-node fixture fills in the outbound column. -/
theorem claim_C10_witness :
    (∃ node1 visited ctx2,
      _flatten_and_join_nonrecursive_nodes hoistRoot hoistCtx = .ok ((node1, visited), ctx2) ∧
      node1.recursions = [hoistRecNode] ∧
      subtreeRecursions hoistRoot = [hoistRecNode] ∧
      (∃ c, ctx2.query_path_to_recursion_columns
        ["Animal", "out_Animal_ParentOf", "in_Animal_ParentOf"] = some (c, none))) ∧
    (∃ out ctx2 c, _create_recursive_clause recNodeFix recCtx
        (some (.col 0 "animal_id")) (some 2) = .ok (some out, ctx2) ∧
      ctx2.query_path_to_recursion_columns ["Animal", "in_Animal_ParentOf"] =
        some (c, some out)) := by
  constructor
  · cases h : _flatten_and_join_nonrecursive_nodes hoistRoot hoistCtx with
    | error err =>
        have hok : exceptIsOk (_flatten_and_join_nonrecursive_nodes hoistRoot hoistCtx)
            = true := by rfl
        rw [h] at hok
        exact absurd hok (by simp [exceptIsOk])
    | ok p =>
        obtain ⟨hrec, hreg⟩ := claim_C10.1 hoistRoot hoistCtx p.1.1 p.1.2 p.2 (h.trans rfl)
        refine ⟨p.1.1, p.1.2, p.2, rfl, hrec.trans (by rfl), by rfl, ?_⟩
        have hmem : hoistRecNode ∈ p.1.1.recursions := by
          rw [hrec]
          exact List.mem_singleton.mpr rfl
        exact hreg hoistRecNode hmem
  · obtain ⟨ctx', hok, _, _, hpair, _⟩ := createRecursive_ok recNodeFix recCtx
      (.col 0 "animal_id") 2 1 1 1 "animal_id" "parentof_id" "parentof_id" "animal_id"
      ⟨"Animal", 0⟩ (.base 1) (.col 0 "animal_id") none rfl rfl rfl rfl rfl rfl rfl rfl
    obtain ⟨c, hc⟩ := claim_C10.2 recNodeFix recCtx (some (.col 0 "animal_id")) (some 2)
      _ ctx' hok
    exact ⟨_, ctx', c, hok, hc⟩

end EmitSql
